import Mathlib

/-!
Azure DevOps UI Translation Helper: dictionary store and localization engine.

A shallow embedding of `src/content/storage-manager.js` and `src/content/translation.js`, and of
the parts of `src/ui/options/options.js` and `src/ui/settings/settings.js` that drive the store:
the loaders and the import handler of the options page, the form of the settings page.

Modelling conventions

* A JavaScript string is a Lean `String` (a sequence of Unicode scalar values; lone surrogates
  are not represented).
* A translation object (`translations`, a plain object used as a dictionary) is a
  `TranslationMap`: its own enumerable properties in insertion order, with distinct keys; the
  reordering of integer-like keys is not represented. Its prototype is `Object.prototype`, and
  the two places where the source meets a member of the prototype are modelled: the assignment
  `translations[entry.source] = entry.target` for the name `__proto__` (`TranslationMap.set`),
  and the method call `translations.hasOwnProperty(...)` on a dictionary with an own entry of
  that name (`TranslationMap.callHasOwnProperty`, `translateTextNodeCall`). An object read
  from `chrome.storage` or built by `JSON.parse` has the own properties that were stored or
  written in the text, one named `__proto__` included.
* The module-level variables of `StorageManager` (`currentStorageType`, `indexedDB_instance`)
  and the persisted platform data (`chrome.storage.sync`, `chrome.storage.local`, the IndexedDB
  object store) are fields of an explicit `Store` that every operation takes and returns.
* A promise that rejects is an `Except.error`; the store is returned alongside, because the
  assignments made before the rejection stay in effect.
* Platform failures are modelled exactly where the source has a failure branch
  (`chrome.runtime.lastError`, `request.onerror`, `transaction.onerror`): a `Faults` record says
  which of these platform calls fail. Platform calls whose callback has no failure branch
  (`chrome.storage.*.get`, the write of the `storageType` key) are modelled as succeeding.
* Every asynchronous function is run to completion as one step; interleavings of callbacks
  between two `await`s are not represented.
* Calls of the DOM (`createTreeWalker`, `nextNode`, reading and writing `textContent`) do not
  throw in `translateDocument`; `translateDocumentWithFault` is the same function with a
  traversal that may throw at a given text node, and `translateDocumentCall` the same function
  with the exception that `translateTextNode` itself can throw.
* A JSON document read by the options page is a `JsonValue`. The store holds maps of strings
  only, so a function that would store any other value (an imported object with a value that is
  not a string, say) returns `none` there.
* A number of the settings page is an integer or `NaN`, an `Option Int`.
* The percentages that `updateStats` and `getStorageInfo` compute before `toFixed(1)` are exact
  rationals; the rounding of doubles is not represented.
-/

namespace TranslationHelper

/-! ## Strings -/

/-- ECMAScript WhiteSpace and LineTerminator code points: the characters that
`String.prototype.trim` strips and that the regular-expression class `\s` matches. -/
def isJsSpace (c : Char) : Bool :=
  c.toNat = 0x09 || c.toNat = 0x0A || c.toNat = 0x0B || c.toNat = 0x0C || c.toNat = 0x0D ||
  c.toNat = 0x20 || c.toNat = 0xA0 || c.toNat = 0x1680 ||
  (0x2000 ≤ c.toNat && c.toNat ≤ 0x200A) ||
  c.toNat = 0x2028 || c.toNat = 0x2029 || c.toNat = 0x202F || c.toNat = 0x205F ||
  c.toNat = 0x3000 || c.toNat = 0xFEFF

/-- Longest prefix of white space: the characters matched by `/^\s*/`. -/
def leadingSpaces : List Char → List Char
  | [] => []
  | c :: cs => if isJsSpace c then c :: leadingSpaces cs else []

/-- What is left after the longest prefix of white space is removed. -/
def dropLeadingSpaces : List Char → List Char
  | [] => []
  | c :: cs => if isJsSpace c then dropLeadingSpaces cs else c :: cs

/-- Result of `s.trim()`: white space removed from both ends. -/
def jsTrim (s : String) : String :=
  ⟨(dropLeadingSpaces (dropLeadingSpaces s.data).reverse).reverse⟩

/-- Result of `s.match(/^\s*/)[0]`: the match always succeeds and is the longest white-space
prefix. -/
def matchLeadingWhitespace (s : String) : String :=
  ⟨leadingSpaces s.data⟩

/-- Result of `s.match(/\s*$/)[0]`: the leftmost position from which only white space follows up
to the end of the string, that is the longest white-space suffix. -/
def matchTrailingWhitespace (s : String) : String :=
  ⟨(leadingSpaces s.data.reverse).reverse⟩

/-- Size of `new Blob([s])`: the length in bytes of the UTF-8 encoding of `s`. -/
def blobSize (s : String) : Nat :=
  (s.data.map Char.utf8Size).sum

/-! ## Translation objects -/

/-- Property assignment `obj[k] = v` on the list of own properties: an existing key keeps its
place and gets the new value, a new key is appended. -/
def setEntry (k v : String) : List (String × String) → List (String × String)
  | [] => [(k, v)]
  | (k0, v0) :: rest => if k0 = k then (k0, v) :: rest else (k0, v0) :: setEntry k v rest

/-- A plain object used as a dictionary from source text to target text: its own properties in
insertion order; the keys of an object are distinct. -/
structure TranslationMap where
  entries : List (String × String)
  nodup : (entries.map Prod.fst).Nodup

instance : DecidableEq TranslationMap := fun a b =>
  decidable_of_iff (a.entries = b.entries)
    ⟨fun h => by cases a; cases b; simp_all, fun h => by rw [h]⟩

namespace TranslationMap

/-- The object literal `{}`. -/
def empty : TranslationMap := ⟨[], List.nodup_nil⟩

/-- Value of `Object.keys(obj)`. -/
def keys (m : TranslationMap) : List String := m.entries.map Prod.fst

/-- The own-property test, the method `hasOwnProperty` of `Object.prototype`, applied to `obj`
and `k`. -/
def hasOwnProperty (m : TranslationMap) (k : String) : Bool := (m.entries.lookup k).isSome

/-- Value of `obj[k]`, `none` standing for `undefined`. -/
def get? (m : TranslationMap) (k : String) : Option String := m.entries.lookup k

/-- Effect of `obj[k] = v` for a string `v` on a plain object. An assignment to the name
`__proto__`, when the object has no own property of that name, reaches the setter that
`Object.prototype` provides, and that setter ignores a string: no property is created and the
object is unchanged. Every other assignment writes the own property. -/
def set (m : TranslationMap) (k v : String) : TranslationMap :=
  if k = "__proto__" ∧ m.hasOwnProperty "__proto__" = false then m
  else ⟨setEntry k v m.entries, by
    have key : ∀ l : List (String × String), (l.map Prod.fst).Nodup →
        (∀ a, a ∈ (setEntry k v l).map Prod.fst → a ∈ l.map Prod.fst ∨ a = k) ∧
        ((setEntry k v l).map Prod.fst).Nodup := by
      intro l
      induction l with
      | nil => intro _; simp [setEntry]
      | cons p rest ih =>
        obtain ⟨k0, v0⟩ := p
        intro h
        simp only [List.map_cons, List.nodup_cons] at h
        obtain ⟨hmem, hrest⟩ := ih h.2
        by_cases hk : k0 = k
        · simp only [setEntry, hk, if_true, List.map_cons, List.nodup_cons]
          refine ⟨fun a ha => Or.inl (by simpa [hk] using ha), ?_, h.2⟩
          simpa [hk] using h.1
        · simp only [setEntry, hk, if_false, List.map_cons, List.nodup_cons]
          refine ⟨?_, ?_, hrest⟩
          · intro a ha
            rcases List.mem_cons.mp ha with h1 | h1
            · exact Or.inl (by simp [h1])
            · rcases hmem a h1 with h2 | h2
              · exact Or.inl (List.mem_cons_of_mem _ h2)
              · exact Or.inr h2
          · intro hin
            rcases hmem k0 hin with h2 | h2
            · exact h.1 h2
            · exact hk h2
    exact (key m.entries m.nodup).2⟩

end TranslationMap

/-! ## JSON serialization of a translation object -/

/-- Lower-case hexadecimal digit of a number below sixteen. -/
def hexDigit (n : Nat) : Char :=
  if n < 10 then Char.ofNat (48 + n) else Char.ofNat (87 + n)

/-- The character U+0022, the double quote. -/
def doubleQuote : Char := Char.ofNat 0x22

/-- The character U+005C, the backslash. -/
def backslash : Char := Char.ofNat 0x5C

/-- Escaping of one character by `JSON.stringify` (QuoteJSONString): the double quote, the
backslash and the control characters below U+0020 are escaped, every other character is
copied. -/
def quoteJSONChar (c : Char) : List Char :=
  if c = doubleQuote then [backslash, doubleQuote]
  else if c = backslash then [backslash, backslash]
  else if c.toNat = 0x08 then [backslash, 'b']
  else if c.toNat = 0x09 then [backslash, 't']
  else if c.toNat = 0x0A then [backslash, 'n']
  else if c.toNat = 0x0C then [backslash, 'f']
  else if c.toNat = 0x0D then [backslash, 'r']
  else if c.toNat < 0x20 then
    [backslash, 'u', '0', '0', hexDigit (c.toNat / 16), hexDigit (c.toNat % 16)]
  else [c]

/-- Characters of `JSON.stringify(s)` for a string `s`. -/
def quoteJSONString (s : String) : List Char :=
  doubleQuote :: (s.data.flatMap quoteJSONChar ++ [doubleQuote])

/-- Characters of the members of the serialized object, separated by commas. -/
def jsonMembers : List (String × String) → List Char
  | [] => []
  | [(k, v)] => quoteJSONString k ++ ':' :: quoteJSONString v
  | (k, v) :: rest => quoteJSONString k ++ ':' :: quoteJSONString v ++ ',' :: jsonMembers rest

/-- Value of `JSON.stringify(translations)`. Members are written in the order of `entries`; the
byte size does not depend on that order. -/
def jsonStringify (m : TranslationMap) : String :=
  ⟨Char.ofNat 0x7B :: (jsonMembers m.entries ++ [Char.ofNat 0x7D])⟩

/-- Two decimal digits of a number below one hundred. -/
def twoDigits (n : Nat) : String :=
  Nat.repr (n / 10) ++ Nat.repr (n % 10)

/-- Value of `(num / den).toFixed(2)` for a power of two `den` (1024 or 1024 * 1024 in the
source): the quotient is exact in double arithmetic, `toFixed` takes the integer `n` with
`n / 100` nearest to it, the larger one on a tie, and prints it with two decimals. -/
def toFixed2 (num den : Nat) : String :=
  let n := (2 * 100 * num + den) / (2 * den)
  Nat.repr (n / 100) ++ "." ++ twoDigits (n % 100)

/-! ## The dictionary store (`storage-manager.js`) -/

/-- Rejection values of the store's promises. -/
inductive StoreError where
  /-- An exception `new Error(message)` created by the store itself. -/
  | error (message : String)
  /-- The value of `chrome.runtime.lastError` after a failed `chrome.storage` write. -/
  | lastError
  /-- The value of `request.error` or `transaction.error` of a failed IndexedDB call. -/
  | idbError
  deriving DecidableEq, Repr

/-- One record of the IndexedDB object store `translations` (key path `id`). -/
structure IdbEntry where
  id : Nat
  source : String
  target : String
  deriving DecidableEq, Repr

/-- Persisted platform data, shared by every page of the extension. -/
structure Chrome where
  /-- Value of the key `customTranslations` in `chrome.storage.sync`, if present. -/
  syncCustomTranslations : Option TranslationMap
  /-- Value of the key `customTranslations` in `chrome.storage.local`, if present. -/
  localCustomTranslations : Option TranslationMap
  /-- Value of the key `storageType` in `chrome.storage.local`, if present. -/
  storageType : Option String
  /-- Records of the object store `translations`, in key order. -/
  objectStore : List IdbEntry
  /-- Ghost counter: the number of data writes requested so far (calls of
  `chrome.storage.sync.set` or `chrome.storage.local.set` with `customTranslations`, and
  read-write transactions on the object store). -/
  dataWrites : Nat
  deriving DecidableEq

/-- State read and written by the store: the two module-level variables of `StorageManager`
and the persisted platform data. -/
structure Store where
  currentStorageType : String
  /-- Whether `indexedDB_instance` holds an open connection. -/
  indexedDB_instance : Bool
  chrome : Chrome
  deriving DecidableEq

/-- Which platform calls fail, for the calls whose failure the source handles. -/
structure Faults where
  /-- The call `chrome.storage.sync.set` reports `chrome.runtime.lastError`. -/
  syncSetLastError : Bool
  /-- The call `chrome.storage.local.set` of the data reports `chrome.runtime.lastError`. -/
  localSetLastError : Bool
  /-- The request `indexedDB.open` fires `onerror`. -/
  openError : Bool
  /-- The read-write transaction fires `onerror` and is rolled back. -/
  transactionError : Bool
  /-- The request `getAll` fires `onerror`. -/
  requestError : Bool
  deriving DecidableEq

/-- No platform call fails. -/
def Faults.none : Faults := ⟨false, false, false, false, false⟩

/-- The initial state of a freshly loaded script: `currentStorageType = 'local'`,
`indexedDB_instance = null`. -/
def Store.fresh (chrome : Chrome) : Store := ⟨"local", false, chrome⟩

/-- Value of `value || fallback` for a string property that may be absent: `undefined` and the
empty string are falsy. -/
def orElse (value : Option String) (fallback : String) : String :=
  match value with
  | some v => if v = "" then fallback else v
  | none => fallback

/-- The function `init`: reads the key `storageType` and resolves with the selector. -/
def init (s : Store) : String × Store :=
  let currentStorageType := orElse s.chrome.storageType "local"
  (currentStorageType, { s with currentStorageType := currentStorageType })

/-- The function `setStorageType`. -/
def setStorageType (type : String) (s : Store) : Except StoreError Unit × Store :=
  if ¬ type ∈ ["sync", "local", "indexeddb"] then
    (.error (.error ("Ungültiger Storage-Typ: " ++ type)), s)
  else
    (.ok (), { s with currentStorageType := type,
                      chrome := { s.chrome with storageType := some type } })

/-- The function `getStorageType`. -/
def getStorageType (s : Store) : String := s.currentStorageType

/-- The function `initIndexedDB`: reuses the cached connection or opens one. -/
def initIndexedDB (pf : Faults) (s : Store) : Except StoreError Unit × Store :=
  if s.indexedDB_instance then (.ok (), s)
  else if pf.openError then (.error .idbError, s)
  else (.ok (), { s with indexedDB_instance := true })

/-- The function `saveToChromeSync`. The test `sizeKB > 100` on `sizeKB = size / 1024` is the
test `size > 100 * 1024` on the byte size, the division by 1024 being exact. -/
def saveToChromeSync (pf : Faults) (translations : TranslationMap) (s : Store) :
    Except StoreError Unit × Store :=
  let jsonString := jsonStringify translations
  let size := blobSize jsonString
  if size > 100 * 1024 then
    (.error (.error ("Data too large for chrome.storage.sync! Limit: 100 KB, Current: " ++
      toFixed2 size 1024 ++ " KB")), s)
  else
    let s1 := { s with chrome := { s.chrome with dataWrites := s.chrome.dataWrites + 1 } }
    if pf.syncSetLastError then (.error .lastError, s1)
    else (.ok (), { s1 with chrome := { s1.chrome with syncCustomTranslations := some translations } })

/-- The function `loadFromChromeSync`. A stored object is truthy, so `|| {}` applies only when
the key is absent. -/
def loadFromChromeSync (s : Store) : Except StoreError TranslationMap × Store :=
  (.ok (s.chrome.syncCustomTranslations.getD TranslationMap.empty), s)

/-- The function `saveToChromeLocal`. The test `sizeMB > 10` on `sizeMB = size / (1024 * 1024)`
is the test `size > 10 * 1024 * 1024` on the byte size. -/
def saveToChromeLocal (pf : Faults) (translations : TranslationMap) (s : Store) :
    Except StoreError Unit × Store :=
  let jsonString := jsonStringify translations
  let size := blobSize jsonString
  if size > 10 * 1024 * 1024 then
    (.error (.error ("Data too large for chrome.storage.local! Limit: 10 MB, Current: " ++
      toFixed2 size (1024 * 1024) ++ " MB")), s)
  else
    let s1 := { s with chrome := { s.chrome with dataWrites := s.chrome.dataWrites + 1 } }
    if pf.localSetLastError then (.error .lastError, s1)
    else (.ok (), { s1 with chrome := { s1.chrome with localCustomTranslations := some translations } })

/-- The function `loadFromChromeLocal`. -/
def loadFromChromeLocal (s : Store) : Except StoreError TranslationMap × Store :=
  (.ok (s.chrome.localCustomTranslations.getD TranslationMap.empty), s)

/-- The records added by the `forEach` of `saveToIndexedDB`, numbered by `count++`. -/
def addEntries (count : Nat) : List (String × String) → List IdbEntry
  | [] => []
  | (source, target) :: rest => ⟨count, source, target⟩ :: addEntries (count + 1) rest

/-- The function `saveToIndexedDB`: one read-write transaction that clears the object store and
adds one record per entry; an aborted transaction leaves the object store as it was. The
sources of the records are the keys of an object, hence distinct, so the unique index on
`source` is never violated. -/
def saveToIndexedDB (pf : Faults) (translations : TranslationMap) (s : Store) :
    Except StoreError Unit × Store :=
  match initIndexedDB pf s with
  | (.error e, s1) => (.error e, s1)
  | (.ok (), s1) =>
    let s2 := { s1 with chrome := { s1.chrome with dataWrites := s1.chrome.dataWrites + 1 } }
    if pf.transactionError then (.error .idbError, s2)
    else (.ok (), { s2 with chrome := { s2.chrome with objectStore := addEntries 0 translations.entries } })

/-- The object built by the `forEach` of `loadFromIndexedDB` from the records of `getAll()`:
starting from `{}`, one assignment `translations[entry.source] = entry.target` per record. A
record whose source is `__proto__` leaves no entry (see `TranslationMap.set`). -/
def collectEntries (entries : List IdbEntry) : TranslationMap :=
  entries.foldl (fun translations entry => translations.set entry.source entry.target)
    TranslationMap.empty

/-- The function `loadFromIndexedDB`. -/
def loadFromIndexedDB (pf : Faults) (s : Store) : Except StoreError TranslationMap × Store :=
  match initIndexedDB pf s with
  | (.error e, s1) => (.error e, s1)
  | (.ok (), s1) =>
    if pf.requestError then (.error .idbError, s1)
    else (.ok (collectEntries s1.chrome.objectStore), s1)

/-- The function `save`. -/
def save (pf : Faults) (translations : TranslationMap) (s : Store) :
    Except StoreError Unit × Store :=
  if s.currentStorageType = "sync" then saveToChromeSync pf translations s
  else if s.currentStorageType = "local" then saveToChromeLocal pf translations s
  else if s.currentStorageType = "indexeddb" then saveToIndexedDB pf translations s
  else (.error (.error ("Unbekannter Storage-Typ: " ++ s.currentStorageType)), s)

/-- The function `load`. -/
def load (pf : Faults) (s : Store) : Except StoreError TranslationMap × Store :=
  if s.currentStorageType = "sync" then loadFromChromeSync s
  else if s.currentStorageType = "local" then loadFromChromeLocal s
  else if s.currentStorageType = "indexeddb" then loadFromIndexedDB pf s
  else (.error (.error ("Unbekannter Storage-Typ: " ++ s.currentStorageType)), s)

/-- The function `migrate`. The constant `oldType` of the source is assigned and never read. -/
def migrate (pfLoad pfSave : Faults) (fromType toType : String) (s : Store) :
    Except StoreError TranslationMap × Store :=
  let s1 := { s with currentStorageType := fromType }
  match load pfLoad s1 with
  | (.error e, s2) => (.error e, s2)
  | (.ok translations, s2) =>
    let s3 := { s2 with currentStorageType := toType }
    match save pfSave translations s3 with
    | (.error e, s4) => (.error e, s4)
    | (.ok (), s4) =>
      match setStorageType toType s4 with
      | (.error e, s5) => (.error e, s5)
      | (.ok (), s5) => (.ok translations, s5)

/-- The result of `getStorageInfo` without `percentUsed`, which the source computes in
floating point. -/
structure StorageInfo where
  type : String
  count : Nat
  sizeBytes : Nat
  sizeFormatted : String
  limit : Nat
  deriving DecidableEq, Repr

/-- The function `getStorageInfo`. The `switch` has no default branch; `load` has already
thrown when the selector is none of the three identifiers. -/
def getStorageInfo (pf : Faults) (s : Store) : Except StoreError StorageInfo × Store :=
  match load pf s with
  | (.error e, s1) => (.error e, s1)
  | (.ok translations, s1) =>
    let jsonString := jsonStringify translations
    let sizeBytes := blobSize jsonString
    let count := translations.keys.length
    if s1.currentStorageType = "sync" then
      (.ok ⟨s1.currentStorageType, count, sizeBytes, toFixed2 sizeBytes 1024 ++ " KB", 100 * 1024⟩, s1)
    else if s1.currentStorageType = "local" then
      (.ok ⟨s1.currentStorageType, count, sizeBytes, toFixed2 sizeBytes 1024 ++ " KB",
        10 * 1024 * 1024⟩, s1)
    else
      (.ok ⟨s1.currentStorageType, count, sizeBytes, toFixed2 sizeBytes (1024 * 1024) ++ " MB",
        1 * 1024 * 1024 * 1024⟩, s1)

/-- The three backend identifiers. -/
inductive Backend where
  | chromeSync
  | chromeLocal
  | indexedDB
  deriving DecidableEq, Repr

/-- The identifier string of a backend. -/
def Backend.id : Backend → String
  | .chromeSync => "sync"
  | .chromeLocal => "local"
  | .indexedDB => "indexeddb"

/-- Capacity of a backend in bytes as the claims state it: 100 KiB, 10 MiB, or no bound. -/
def Backend.capacity : Backend → Option Nat
  | .chromeSync => some 102400
  | .chromeLocal => some 10485760
  | .indexedDB => none

/-- The serialized size of a map is within the capacity of a backend. -/
def withinCapacity (b : Backend) (m : TranslationMap) : Prop :=
  match b.capacity with
  | some limit => blobSize (jsonStringify m) ≤ limit
  | none => True

instance (b : Backend) (m : TranslationMap) : Decidable (withinCapacity b m) := by
  unfold withinCapacity; cases b.capacity <;> infer_instance

/-- The translation data that a backend holds, as `load` reads it when no platform call
fails. -/
def heldBy (b : Backend) (c : Chrome) : TranslationMap :=
  match b with
  | .chromeSync => c.syncCustomTranslations.getD TranslationMap.empty
  | .chromeLocal => c.localCustomTranslations.getD TranslationMap.empty
  | .indexedDB => collectEntries c.objectStore

/-! ## The localization engine (`translation.js`) -/

/-- A parsed JSON document. Numbers are inspected for truthiness only. -/
inductive JsonValue where
  | null
  | bool (b : Bool)
  | number (n : Int)
  | string (s : String)
  | array (items : List JsonValue)
  | object (members : List (String × JsonValue))

/-- Truthiness of a JSON value in a condition or on the left of `||`. -/
def JsonValue.truthy : JsonValue → Bool
  | .null => false
  | .bool b => b
  | .number n => n ≠ 0
  | .string s => s ≠ ""
  | .array _ => true
  | .object _ => true

/-- Outcome of fetching the bundled asset `data/azure-devops-translations.json`. -/
inductive FetchOutcome where
  /-- The promise of `fetch` rejects. -/
  | networkError
  /-- A response arrives; `body` is `none` when `response.json()` rejects. -/
  | response (ok : Bool) (body : Option JsonValue)

/-- The function `loadDefaultTranslations` of the content script: it returns
`data.translations || data`, or `{}` when anything throws. It assigns no variable of the
script. -/
def loadDefaultTranslations (asset : FetchOutcome) : JsonValue :=
  match asset with
  | .networkError => .object []
  | .response ok body =>
    if ¬ ok then .object []
    else
      match body with
      | none => .object []
      | some .null => .object []
      | some (.object members) =>
        match members.lookup "translations" with
        | some t => if t.truthy then t else .object members
        | none => .object members
      | some data => data

/-- A text node under `document.body`, with what the pass reads of it. The tree walker visits
the text nodes in document order and its filter reads only the parent element and the text, so
the body is represented by the list of its text nodes in that order. -/
structure TextNode where
  /-- Identity of the node, the key under which the `WeakSet` holds it. -/
  id : Nat
  /-- Value of `node.parentElement.tagName`, `none` when `node.parentElement` is `null`. -/
  parentTagName : Option String
  textContent : String
  deriving DecidableEq, Repr

/-- State of the content script: its module-level variables, its `StorageManager`, and the page
it runs in. -/
structure Engine where
  translations : TranslationMap
  isTranslating : Bool
  /-- Members of the `WeakSet` `processedNodes`, by node identity. -/
  processedNodes : List Nat
  defaultTranslations : TranslationMap
  store : Store
  /-- Text nodes under `document.body` in document order. -/
  body : List TextNode
  /-- Number of calls of `startTranslation` so far; each installs a `MutationObserver` and an
  interval timer. -/
  started : Nat
  deriving DecidableEq

/-- State of the content script when it is loaded: the initializers of its variables. -/
def Engine.initial (chrome : Chrome) (body : List TextNode) : Engine :=
  { translations := TranslationMap.empty, isTranslating := false, processedNodes := [],
    defaultTranslations := TranslationMap.empty, store := Store.fresh chrome, body := body,
    started := 0 }

/-- The function `translateTextNode` where the test `translations.hasOwnProperty(originalText)`
is the own-property test, as it is for every dictionary without an own entry named
`hasOwnProperty`: the value it returns, the node and the processed set after it. The function
with the method call made on the dictionary itself is `translateTextNodeCall`. -/
def translateTextNode (translations : TranslationMap) (processedNodes : List Nat)
    (textNode : TextNode) : Bool × TextNode × List Nat :=
  if textNode.id ∈ processedNodes then (false, textNode, processedNodes)
  else
    let originalText := jsTrim textNode.textContent
    match translations.get? originalText with
    | some translatedText =>
      let leadingWhitespace := matchLeadingWhitespace textNode.textContent
      let trailingWhitespace := matchTrailingWhitespace textNode.textContent
      (true, { textNode with textContent := leadingWhitespace ++ translatedText ++ trailingWhitespace },
        textNode.id :: processedNodes)
    | none => (false, textNode, processedNodes)

/-- The filter `acceptNode` of the tree walker: `true` for `FILTER_ACCEPT`. -/
def acceptNode (node : TextNode) : Bool :=
  match node.parentTagName with
  | none => false
  | some tagName =>
    if tagName = "SCRIPT" ∨ tagName = "STYLE" then false
    else
      let text := jsTrim node.textContent
      if text = "" then false else true

/-- The `while` loop of `translateDocument` over the text nodes still to visit, with
`translateTextNode`: the number of nodes translated, the nodes and the processed set after
it. -/
def translateNodes (translations : TranslationMap) :
    List Nat → List TextNode → Nat × List TextNode × List Nat
  | processedNodes, [] => (0, [], processedNodes)
  | processedNodes, node :: rest =>
    if acceptNode node then
      match translateTextNode translations processedNodes node with
      | (translated, node1, processed1) =>
        match translateNodes translations processed1 rest with
        | (count, rest1, processed2) =>
          ((if translated then count + 1 else count), node1 :: rest1, processed2)
    else
      match translateNodes translations processedNodes rest with
      | (count, rest1, processed2) => (count, node :: rest1, processed2)

/-- The function `translateDocument` with `translateTextNode`, returning the final value of its
local variable `translatedCount` (zero when the call returns at the guard) and the state after
it. It is `translateDocumentCall` for every dictionary without an own entry named
`hasOwnProperty`. -/
def translateDocument (e : Engine) : Nat × Engine :=
  if e.isTranslating then (0, e)
  else
    match translateNodes e.translations e.processedNodes e.body with
    | (translatedCount, body1, processed1) =>
      (translatedCount, { e with body := body1, processedNodes := processed1, isTranslating := false })

/-- The function `startTranslation`: installs the observer and the timer and runs the initial
pass. -/
def startTranslation (e : Engine) : Engine :=
  (translateDocument { e with started := e.started + 1 }).2

/-- The function `initializeTranslations`. The three fault records are those of the calls of
`load`, `save` and `getStorageInfo`. The value of `loadDefaultTranslations()` is awaited and
dropped, as in the source. -/
def initializeTranslations (asset : FetchOutcome) (pfLoad pfSave pfInfo : Faults) (e : Engine) :
    Engine :=
  let _dropped := loadDefaultTranslations asset
  let st1 := (init e.store).2
  match load pfLoad st1 with
  | (.error _, st2) =>
    startTranslation { e with store := st2, translations := e.defaultTranslations }
  | (.ok loaded, st2) =>
    if loaded.keys.length = 0 then
      match save pfSave e.defaultTranslations st2 with
      | (.error _, st3) =>
        startTranslation { e with store := st3, translations := e.defaultTranslations }
      | (.ok (), st3) =>
        match getStorageInfo pfInfo st3 with
        | (.error _, st4) =>
          startTranslation { e with store := st4, translations := e.defaultTranslations }
        | (.ok _, st4) =>
          startTranslation { e with store := st4, translations := e.defaultTranslations }
    else
      match getStorageInfo pfInfo st2 with
      | (.error _, st3) =>
        startTranslation { e with store := st3, translations := e.defaultTranslations }
      | (.ok _, st3) =>
        startTranslation { e with store := st3, translations := loaded }

/-- The listener of `chrome.storage.onChanged`; `changes` lists the keys of the object
`changes`, each of which holds a change record, and `areaName` is the unused second argument. -/
def onChanged (pf : Faults) (changes : List String) (_areaName : String) (e : Engine) : Engine :=
  if "customTranslations" ∈ changes ∨ "storageType" ∈ changes then
    let st1 := (init e.store).2
    match load pf st1 with
    | (.error _, st2) => { e with store := st2 }
    | (.ok loaded, st2) =>
      (translateDocument { e with store := st2, translations := loaded, processedNodes := [] }).2
  else e

/-! ## The pass with a failing traversal, the timer and the observer (`translation.js`) -/

/-- The `try` block of `translateDocument`. With `fault = none` the traversal completes; with
`fault = some k` it throws when the walker reaches the text node at position `k` of the body
(or at its end), the nodes before that position having been handled. The result is the value
of `translatedCount` or the exception, with the state the block leaves. -/
def translateDocumentTry (fault : Option Nat) (e : Engine) : Except Unit Nat × Engine :=
  match fault with
  | none =>
    match translateNodes e.translations e.processedNodes e.body with
    | (translatedCount, body1, processed1) =>
      (.ok translatedCount, { e with body := body1, processedNodes := processed1 })
  | some k =>
    match translateNodes e.translations e.processedNodes (e.body.take k) with
    | (_, body1, processed1) =>
      (.error (), { e with body := body1 ++ e.body.drop k, processedNodes := processed1 })

/-- The function `translateDocument` with its `try`, `catch` and `finally`: the guard, the flag
set, the `try` block, the `catch` that only logs the exception, and the `finally` that resets
the flag. The first component is the final `translatedCount`, zero when nothing was counted. -/
def translateDocumentWithFault (fault : Option Nat) (e : Engine) : Nat × Engine :=
  if e.isTranslating then (0, e)
  else
    match translateDocumentTry fault { e with isTranslating := true } with
    | (.ok translatedCount, e1) => (translatedCount, { e1 with isTranslating := false })
    | (.error _, e1) => (0, { e1 with isTranslating := false })

/-- A record delivered to the `MutationObserver`: its `type` and, for `childList`, the length of
`addedNodes`. -/
inductive MutationRecord where
  | childList (addedNodes : Nat)
  | characterData
  | attributes
  deriving DecidableEq, Repr

/-- The value of `shouldTranslate` after the `forEach` over the records. -/
def shouldTranslate (mutations : List MutationRecord) : Bool :=
  mutations.any fun mutation =>
    match mutation with
    | .childList addedNodes => decide (addedNodes > 0)
    | .characterData => true
    | .attributes => false

/-- The callback of the `MutationObserver` installed by `startTranslation`. -/
def onMutations (fault : Option Nat) (mutations : List MutationRecord) (e : Engine) : Engine :=
  if shouldTranslate mutations ∧ ¬ e.isTranslating then (translateDocumentWithFault fault e).2
  else e

/-- The callback of the interval timer installed by `startTranslation`. -/
def onInterval (fault : Option Nat) (e : Engine) : Engine :=
  if ¬ e.isTranslating then (translateDocumentWithFault fault e).2 else e

/-! ## JSON values as the options page inspects them -/

/-- The JSON document that serializes a translation object. -/
def TranslationMap.toJson (m : TranslationMap) : JsonValue :=
  .object (m.entries.map fun kv => (kv.1, .string kv.2))

/-- The members of an object all of whose values are strings; `none` when some value is not a
string. -/
def stringMembers : List (String × JsonValue) → Option (List (String × String))
  | [] => some []
  | (k, .string v) :: rest => (stringMembers rest).map fun entries => (k, v) :: entries
  | _ => none

/-- A JSON value read as a translation object: an object with distinct keys whose values are
all strings. Any other value is outside the data model of the store and gives `none`. -/
def JsonValue.asTranslationMap : JsonValue → Option TranslationMap
  | .object members =>
    match stringMembers members with
    | some entries =>
      if h : (entries.map Prod.fst).Nodup then some ⟨entries, h⟩ else none
    | none => none
  | _ => none

/-- Value of `typeof v === 'object'`: true for `null`, arrays and objects. -/
def JsonValue.typeofObject : JsonValue → Bool
  | .null => true
  | .array _ => true
  | .object _ => true
  | _ => false

/-- Value of `Array.isArray(v)`. -/
def JsonValue.isArray : JsonValue → Bool
  | .array _ => true
  | _ => false

/-- Value of `Object.keys(v).length` for an object or an array, the only values the import
handler applies it to. -/
def JsonValue.keyCount : JsonValue → Nat
  | .object members => members.length
  | .array items => items.length
  | _ => 0

/-- Value of `data[name] || fallback` for an object with the given members. The parsed objects
have distinct keys. -/
def memberOr (members : List (String × JsonValue)) (name : String) (fallback : JsonValue) :
    JsonValue :=
  match members.lookup name with
  | some v => if v.truthy then v else fallback
  | none => fallback

/-! ## The options page (`options.js`) -/

/-- State of the options page: its `StorageManager` with the platform data, its two module-level
variables, and the key `selectedLanguagePair` of `chrome.storage.local`. The DOM of the page
(entry rows, statistics, status line) is not represented; what the import handler writes to the
status line is the outcome it returns. -/
structure OptionsPage where
  store : Store
  /-- The variable `currentStorageType` of `options.js`, a copy read by `updateStats`. -/
  currentStorageType : String
  /-- The variable `defaultTranslations` of `options.js`. -/
  defaultTranslations : JsonValue
  /-- Value of the key `selectedLanguagePair` in `chrome.storage.local`, if present. -/
  selectedLanguagePair : Option String

namespace Options

/-- The function `loadDefaultTranslations` of `options.js`: it assigns
`data.translations || data` to the variable `defaultTranslations` and returns it, or returns
`{}` when anything throws. -/
def loadDefaultTranslations (asset : FetchOutcome) (p : OptionsPage) : JsonValue × OptionsPage :=
  match asset with
  | .networkError => (.object [], p)
  | .response ok body =>
    if ¬ ok then (.object [], p)
    else
      match body with
      | none => (.object [], p)
      | some .null => (.object [], p)
      | some (.object members) =>
        let defaultTranslations := memberOr members "translations" (.object members)
        (defaultTranslations, { p with defaultTranslations := defaultTranslations })
      | some data => (data, { p with defaultTranslations := data })

/-- The function `saveLanguagePair`. -/
def saveLanguagePair (pair : String) (p : OptionsPage) : OptionsPage :=
  { p with selectedLanguagePair := some pair }

/-- The function `saveTranslations`: `save`, then `getStorageInfo` for the log line; an
exception of either is thrown again. -/
def saveTranslations (pfSave pfInfo : Faults) (translations : TranslationMap) (p : OptionsPage) :
    Except StoreError Unit × OptionsPage :=
  match save pfSave translations p.store with
  | (.error e, st1) => (.error e, { p with store := st1 })
  | (.ok (), st1) =>
    match getStorageInfo pfInfo st1 with
    | (.error e, st2) => (.error e, { p with store := st2 })
    | (.ok _, st2) => (.ok (), { p with store := st2 })

/-- The function `loadTranslations`: the object it returns (its `translations` and its
`languagePair`) and the state after it. The result is `none` when the store is empty and the
variable `defaultTranslations`, which is then saved, is not a translation object. -/
def loadTranslations (pfLoad pfSave : Faults) (p : OptionsPage) :
    Option ((JsonValue × String) × OptionsPage) :=
  let st1 := (init p.store).2
  let p1 := { p with store := st1, currentStorageType := getStorageType st1 }
  match load pfLoad st1 with
  | (.error _, st2) => some ((p.defaultTranslations, "en-de"), { p1 with store := st2 })
  | (.ok translations, st2) =>
    let languagePair := orElse p.selectedLanguagePair "en-de"
    if translations.keys.length = 0 then
      match p.defaultTranslations.asTranslationMap with
      | none => none
      | some defaults =>
        match save pfSave defaults st2 with
        | (.error _, st3) => some ((p.defaultTranslations, "en-de"), { p1 with store := st3 })
        | (.ok (), st3) => some ((p.defaultTranslations, languagePair), { p1 with store := st3 })
    else some ((translations.toJson, languagePair), { p1 with store := st2 })

/-- The function `renderTranslations`, as far as the state is concerned: the effects of
`loadTranslations`. -/
def renderTranslations (pfLoad pfSave : Faults) (p : OptionsPage) : Option OptionsPage :=
  (loadTranslations pfLoad pfSave p).map fun r => r.2

end Options

/-- What the file input hands to the import handler. -/
inductive ImportFile where
  /-- No file was chosen: `e.target.files[0]` is `undefined`. -/
  | noFile
  /-- The text of the file is not JSON: `JSON.parse` throws. -/
  | unparsable
  /-- The value of `JSON.parse(text)`. -/
  | parsed (data : JsonValue)

/-- The exception that the `catch` of the import handler shows in the status line. -/
inductive ImportError where
  /-- The `SyntaxError` of `JSON.parse`. -/
  | syntaxError
  /-- The `TypeError` of reading a property of `null`. -/
  | typeError
  /-- An exception thrown by the handler itself or by the store. -/
  | thrown (e : StoreError)
  deriving DecidableEq, Repr

/-- What the import handler shows in the status line. -/
inductive ImportOutcome where
  /-- The handler returned at `if (!file) return`. -/
  | ignored
  /-- The success line with the number of imported entries. -/
  | imported (count : Nat)
  /-- The error line. -/
  | failed (error : ImportError)
  deriving DecidableEq, Repr

namespace Options

/-- The pair `translations`, `languagePair` that the import handler takes from a parsed
object. -/
def importSelection (members : List (String × JsonValue)) : JsonValue × JsonValue :=
  match members.lookup "translations" with
  | some translations =>
    if translations.truthy ∧ translations.typeofObject then
      (translations, memberOr members "languagePair" (.string "en-de"))
    else (.object members, .string "en-de")
  | none => (.object members, .string "en-de")

/-- The `onchange` handler of the import file input. The four fault records are those of the
`save` and `getStorageInfo` of `saveTranslations` and of the `load` and `save` of
`renderTranslations`. The result is `none` when the handler goes on to store a value outside
the data model: translations that are not a map of strings, a language pair that is not a
string. -/
def importOnChange (pfSave pfInfo pfLoad pfResave : Faults) (file : ImportFile)
    (p : OptionsPage) : Option (ImportOutcome × OptionsPage) :=
  match file with
  | .noFile => some (.ignored, p)
  | .unparsable => some (.failed .syntaxError, p)
  | .parsed data =>
    if ¬ data.typeofObject ∨ data.isArray then
      some (.failed (.thrown (.error "Ungültiges Format! Erwartet: JSON-Objekt.")), p)
    else
      match data with
      | .object members =>
        match importSelection members with
        | (translations, languagePair) =>
          if translations.keyCount = 0 then
            some (.failed (.thrown (.error "No translations found!")), p)
          else
            match translations.asTranslationMap with
            | none => none
            | some typed =>
              match saveTranslations pfSave pfInfo typed p with
              | (.error e, p1) => some (.failed (.thrown e), p1)
              | (.ok (), p1) =>
                match languagePair with
                | .string pair =>
                  match renderTranslations pfLoad pfResave (saveLanguagePair pair p1) with
                  | some p2 => some (.imported typed.keys.length, p2)
                  | none => none
                | _ => none
      | _ => some (.failed .typeError, p)

end Options

/-! ## The settings page (`settings.js`) -/

/-- Value of a digit character in the given radix, if it is one. -/
def digitValue (radix : Nat) (c : Char) : Option Nat :=
  let v :=
    if '0' ≤ c ∧ c ≤ '9' then some (c.toNat - '0'.toNat)
    else if 'a' ≤ c ∧ c ≤ 'z' then some (c.toNat - 'a'.toNat + 10)
    else if 'A' ≤ c ∧ c ≤ 'Z' then some (c.toNat - 'A'.toNat + 10)
    else none
  match v with
  | some d => if d < radix then some d else none
  | none => none

/-- The values of the longest run of digits at the front. -/
def leadingDigits (radix : Nat) : List Char → List Nat
  | [] => []
  | c :: cs =>
    match digitValue radix c with
    | some d => d :: leadingDigits radix cs
    | none => []

/-- The number written by a run of digits, or `none` for an empty run. -/
def digitsValue (radix : Nat) (digits : List Nat) : Option Nat :=
  if digits = [] then none else some (digits.foldl (fun acc d => acc * radix + d) 0)

/-- The number written at the front of unsigned text: hexadecimal after `0x` or `0X`, decimal
otherwise. -/
def parseUnsigned : List Char → Option Nat
  | '0' :: 'x' :: rest => digitsValue 16 (leadingDigits 16 rest)
  | '0' :: 'X' :: rest => digitsValue 16 (leadingDigits 16 rest)
  | cs => digitsValue 10 (leadingDigits 10 cs)

/-- Value of `parseInt(text)` with no radix: leading white space is skipped, a sign is read, and
the longest run of digits is the number; `none` stands for `NaN`. Numbers are exact integers
(the rounding of integers beyond 2^53 is not represented). -/
def parseInt (text : String) : Option Int :=
  match dropLeadingSpaces text.data with
  | '-' :: rest => (parseUnsigned rest).map fun n => - (n : Int)
  | '+' :: rest => (parseUnsigned rest).map fun n => (n : Int)
  | cs => (parseUnsigned cs).map fun n => (n : Int)

/-- The text that a number field shows for a number: its decimal digits, nothing for `NaN`. -/
def numberText : Option Int → String
  | some n => toString n
  | none => ""

/-- The object `currentSettings`; a number is an integer or `NaN` (`none`). -/
structure Settings where
  storageType : String
  updateInterval : Option Int
  debugMode : Bool
  autoTranslate : Bool
  panelPosition : String
  panelTheme : String
  autoBackup : Bool
  maxCache : Option Int
  experimental : Bool
  deriving DecidableEq, Repr

/-- The constant `DEFAULT_SETTINGS`. -/
def DEFAULT_SETTINGS : Settings :=
  { storageType := "local", updateInterval := some 2000, debugMode := false,
    autoTranslate := true, panelPosition := "side", panelTheme := "light", autoBackup := false,
    maxCache := some 1000, experimental := false }

/-- The controls of the settings form: the `value` of the selects and inputs, the `checked` of
the check boxes. -/
structure SettingsForm where
  storageType : String
  updateInterval : String
  debugMode : Bool
  autoTranslate : Bool
  panelPosition : String
  panelTheme : String
  autoBackup : Bool
  maxCache : String
  experimental : Bool
  deriving DecidableEq, Repr

/-- State of the settings page: the variable `currentSettings`, the form, and the key
`extensionSettings` of `chrome.storage.local`. -/
structure SettingsPage where
  currentSettings : Settings
  form : SettingsForm
  /-- Value of the key `extensionSettings` in `chrome.storage.local`, if present; every write of
  the page stores all nine settings. -/
  extensionSettings : Option Settings
  deriving DecidableEq, Repr

namespace SettingsPage

/-- The function `loadSettings`: the stored settings, spread over the defaults, replace
`currentSettings`, and the form shows `currentSettings`. -/
def loadSettings (p : SettingsPage) : SettingsPage :=
  let currentSettings :=
    match p.extensionSettings with
    | some stored => stored
    | none => p.currentSettings
  { p with
    currentSettings := currentSettings,
    form :=
      { storageType := currentSettings.storageType,
        updateInterval := numberText currentSettings.updateInterval,
        debugMode := currentSettings.debugMode,
        autoTranslate := currentSettings.autoTranslate,
        panelPosition := currentSettings.panelPosition,
        panelTheme := currentSettings.panelTheme,
        autoBackup := currentSettings.autoBackup,
        maxCache := numberText currentSettings.maxCache,
        experimental := currentSettings.experimental } }

/-- The function `saveSettings`: the form is read into `currentSettings`, which is stored. -/
def saveSettings (p : SettingsPage) : Settings × SettingsPage :=
  let currentSettings : Settings :=
    { storageType := p.form.storageType,
      updateInterval := parseInt p.form.updateInterval,
      debugMode := p.form.debugMode,
      autoTranslate := p.form.autoTranslate,
      panelPosition := p.form.panelPosition,
      panelTheme := p.form.panelTheme,
      autoBackup := p.form.autoBackup,
      maxCache := parseInt p.form.maxCache,
      experimental := p.form.experimental }
  (currentSettings,
    { p with currentSettings := currentSettings, extensionSettings := some currentSettings })

/-- A comparison `value < bound` of JavaScript numbers: false when `value` is `NaN`. -/
def numberLt (value : Option Int) (bound : Int) : Bool :=
  match value with
  | some n => decide (n < bound)
  | none => false

/-- A comparison `value > bound` of JavaScript numbers: false when `value` is `NaN`. -/
def numberGt (value : Option Int) (bound : Int) : Bool :=
  match value with
  | some n => decide (n > bound)
  | none => false

/-- The `change` listener of the field `update-interval`: the text the field holds after it. -/
def updateIntervalChange (targetValue : String) : String :=
  let value := parseInt targetValue
  if numberLt value 500 then "500"
  else if numberGt value 10000 then "10000"
  else targetValue

/-- The `change` listener of the field `max-cache`: the text the field holds after it. -/
def maxCacheChange (targetValue : String) : String :=
  let value := parseInt targetValue
  if numberLt value 100 then "100"
  else if numberGt value 10000 then "10000"
  else targetValue

/-- The user enters a text in the field `update-interval`: the field takes the text and the
`change` listener runs. -/
def enterUpdateInterval (text : String) (p : SettingsPage) : SettingsPage :=
  { p with form := { p.form with updateInterval := updateIntervalChange text } }

/-- The user enters a text in the field `max-cache`: the field takes the text and the `change`
listener runs. -/
def enterMaxCache (text : String) (p : SettingsPage) : SettingsPage :=
  { p with form := { p.form with maxCache := maxCacheChange text } }

end SettingsPage

/-! ## Sequences of calls of the store, and the statistics of the options page -/

/-- One call of the public interface of `StorageManager`, with its arguments and with the fault
records of the platform calls it makes. -/
inductive StoreCall where
  | init
  | setStorageType (type : String)
  | save (pf : Faults) (translations : TranslationMap)
  | load (pf : Faults)
  | getStorageInfo (pf : Faults)
  | migrate (pfLoad pfSave : Faults) (fromType toType : String)

/-- The store after a call, whether the call resolved or rejected. -/
def StoreCall.run (call : StoreCall) (s : Store) : Store :=
  match call with
  | .init => (TranslationHelper.init s).2
  | .setStorageType type => (TranslationHelper.setStorageType type s).2
  | .save pf translations => (TranslationHelper.save pf translations s).2
  | .load pf => (TranslationHelper.load pf s).2
  | .getStorageInfo pf => (TranslationHelper.getStorageInfo pf s).2
  | .migrate pfLoad pfSave fromType toType =>
    (TranslationHelper.migrate pfLoad pfSave fromType toType s).2

/-- The store after a sequence of calls, made one after the other. -/
def runCalls (calls : List StoreCall) (s : Store) : Store :=
  calls.foldl (fun st call => call.run st) s

/-- A string is one of the three backend identifiers. -/
def validType (type : String) : Prop :=
  type = "sync" ∨ type = "local" ∨ type = "indexeddb"

instance (type : String) : Decidable (validType type) := by
  unfold validType; infer_instance

/-- The selectors of a store are valid: the in-memory selector is one of the three identifiers,
and the persisted selector is absent or one of them. -/
def validSelectors (s : Store) : Prop :=
  validType s.currentStorageType ∧
    (s.chrome.storageType = none ∨ ∃ type, s.chrome.storageType = some type ∧ validType type)

/-- The arguments of a call are backend identifiers where the call takes any: both arguments of
`migrate`. -/
def StoreCall.migratesBetweenValidTypes : StoreCall → Prop
  | .migrate _ _ fromType toType => validType fromType ∧ validType toType
  | _ => True

/-- The value `sizeBytes / limit * 100` to which `getStorageInfo` applies `toFixed(1)`, in exact
arithmetic. -/
def StorageInfo.percentUsedExact (info : StorageInfo) : ℚ :=
  (info.sizeBytes : ℚ) / (info.limit : ℚ) * 100

/-- What `updateStats` computes before it writes to the page. Numbers are exact rationals: the
decimal literal `0.1` is one tenth, and the rounding of doubles is not represented. -/
structure StatsFigures where
  count : Nat
  sizeBytes : Nat
  sizeKB : String
  maxSizeMB : ℚ
  /-- The value to which `toFixed(1)` is applied to give `percentUsed`. -/
  percentUsedExact : ℚ
  deriving DecidableEq

/-- The capacity in bytes that `maxSizeMB` stands for, the unit conversions of `updateStats`
being by 1024. -/
def StatsFigures.capacityBytes (figures : StatsFigures) : ℚ :=
  figures.maxSizeMB * 1024 * 1024

namespace Options

/-- The function `updateStats` of `options.js`, up to the figures it shows; it reads the
variable `currentStorageType` of the page. -/
def updateStats (translations : TranslationMap) (p : OptionsPage) : StatsFigures :=
  let count := translations.keys.length
  let jsonString := jsonStringify translations
  let sizeBytes := blobSize jsonString
  let sizeKB := toFixed2 sizeBytes 1024
  if p.currentStorageType = "sync" then
    let maxSizeMB : ℚ := 0.1
    ⟨count, sizeBytes, sizeKB, maxSizeMB, ((sizeBytes : ℚ) / 1024) / (maxSizeMB * 1024) * 100⟩
  else if p.currentStorageType = "local" then
    let maxSizeMB : ℚ := 10
    ⟨count, sizeBytes, sizeKB, maxSizeMB, ((sizeBytes : ℚ) / 1024) / (maxSizeMB * 1024) * 100⟩
  else if p.currentStorageType = "indexeddb" then
    let maxSizeMB : ℚ := 1024
    ⟨count, sizeBytes, sizeKB, maxSizeMB, ((sizeBytes : ℚ) / (1024 * 1024)) / maxSizeMB * 100⟩
  else
    let maxSizeMB : ℚ := 10
    ⟨count, sizeBytes, sizeKB, maxSizeMB, ((sizeBytes : ℚ) / 1024) / (maxSizeMB * 1024) * 100⟩

end Options

/-! ## The method call `translations.hasOwnProperty` (`translation.js`) -/

/-- An exception thrown by the script itself. -/
inductive ScriptError where
  /-- The `TypeError` of calling a value that is not a function. -/
  | typeError
  deriving DecidableEq, Repr

/-- The call `translations.hasOwnProperty(key)` as the source writes it: the property
`hasOwnProperty` is read from the dictionary itself and what is found is called. A dictionary
with an own entry named `hasOwnProperty` holds a string there, and calling a string throws a
`TypeError`; any other dictionary inherits the method of `Object.prototype`, the own-property
test. -/
def TranslationMap.callHasOwnProperty (m : TranslationMap) (key : String) :
    Except ScriptError Bool :=
  if m.hasOwnProperty "hasOwnProperty" then .error .typeError
  else .ok (m.hasOwnProperty key)

/-- The function `translateTextNode` with the call `translations.hasOwnProperty(originalText)`
made on the dictionary: the exception it throws, or the value it returns, the node and the
processed set after it. The read `translations[originalText]` of a missing property would give
`undefined`, written out by the concatenation. -/
def translateTextNodeCall (translations : TranslationMap) (processedNodes : List Nat)
    (textNode : TextNode) : Except ScriptError (Bool × TextNode × List Nat) :=
  if textNode.id ∈ processedNodes then .ok (false, textNode, processedNodes)
  else
    let originalText := jsTrim textNode.textContent
    match translations.callHasOwnProperty originalText with
    | .error err => .error err
    | .ok true =>
      let translatedText := (translations.get? originalText).getD "undefined"
      let leadingWhitespace := matchLeadingWhitespace textNode.textContent
      let trailingWhitespace := matchTrailingWhitespace textNode.textContent
      .ok (true,
        { textNode with textContent := leadingWhitespace ++ translatedText ++ trailingWhitespace },
        textNode.id :: processedNodes)
    | .ok false => .ok (false, textNode, processedNodes)

/-- The `while` loop of `translateDocument` over the text nodes still to visit, with
`translateTextNodeCall`: the number of nodes translated or the exception that ended the loop,
and the nodes and the processed set it leaves. An exception leaves the node it was thrown at
and the nodes after it as they were. -/
def translateNodesCall (translations : TranslationMap) :
    List Nat → List TextNode → Except ScriptError Nat × List TextNode × List Nat
  | processedNodes, [] => (.ok 0, [], processedNodes)
  | processedNodes, node :: rest =>
    if acceptNode node then
      match translateTextNodeCall translations processedNodes node with
      | .error err => (.error err, node :: rest, processedNodes)
      | .ok (translated, node1, processed1) =>
        match translateNodesCall translations processed1 rest with
        | (.error err, rest1, processed2) => (.error err, node1 :: rest1, processed2)
        | (.ok count, rest1, processed2) =>
          (.ok (if translated then count + 1 else count), node1 :: rest1, processed2)
    else
      match translateNodesCall translations processedNodes rest with
      | (result, rest1, processed2) => (result, node :: rest1, processed2)

/-- The function `translateDocument` with `translateTextNodeCall`: the guard, the flag set, the
loop in the `try` block, the `catch` that only logs the exception, and the `finally` that
resets the flag. The first component is the final `translatedCount`, zero when the loop was
ended by an exception. -/
def translateDocumentCall (e : Engine) : Nat × Engine :=
  if e.isTranslating then (0, e)
  else
    let e1 := { e with isTranslating := true }
    match translateNodesCall e1.translations e1.processedNodes e1.body with
    | (.ok translatedCount, body1, processed1) =>
      (translatedCount,
        { e1 with body := body1, processedNodes := processed1, isTranslating := false })
    | (.error _, body1, processed1) =>
      (0, { e1 with body := body1, processedNodes := processed1, isTranslating := false })

/-! ## The checks of the import handler (`options.js`) -/

/-- The import handler from `JSON.parse` to its comment `// Save`: the exception thrown by one
of its checks, or the pair `translations`, `languagePair` that it goes on to save. -/
def Options.importValidation (data : JsonValue) : Except ImportError (JsonValue × JsonValue) :=
  if ¬ data.typeofObject ∨ data.isArray then
    .error (.thrown (.error "Ungültiges Format! Erwartet: JSON-Objekt."))
  else
    match data with
    | .object members =>
      match Options.importSelection members with
      | (translations, languagePair) =>
        if translations.keyCount = 0 then .error (.thrown (.error "No translations found!"))
        else .ok (translations, languagePair)
    | _ => .error .typeError

/-! ## Sample data -/

/-- Platform data of a fresh installation: nothing is stored. -/
def emptyChrome : Chrome :=
  { syncCustomTranslations := none, localCustomTranslations := none, storageType := none,
    objectStore := [], dataWrites := 0 }

/-- The dictionary with the single entry `"Work Items" → "Arbeitselemente"`. -/
def workItems : TranslationMap := ⟨[("Work Items", "Arbeitselemente")], by decide⟩

/-- The dictionary with the single entry `"OK" → "In Ordnung"`. -/
def okMap : TranslationMap := ⟨[("OK", "In Ordnung")], by decide⟩

/-- A dictionary with one entry whose value is `n` letters `a`; its serialization has `n + 8`
bytes. -/
def fillerMap (n : Nat) : TranslationMap :=
  ⟨[("k", ⟨List.replicate n 'a'⟩)], by simp⟩

/-- A store whose active backend `local` holds 102408 bytes of data: more than the `sync`
backend accepts, well within what `local` accepts. -/
def overSyncQuotaStore : Store :=
  ⟨"local", false,
    { emptyChrome with localCustomTranslations := some (fillerMap 102400),
                       storageType := some "local" }⟩

/-- The bundled asset in its bare form `{"OK": "In Ordnung"}`, fetched successfully. -/
def okAsset : FetchOutcome :=
  .response true (some (.object [("OK", .string "In Ordnung")]))

/-- A page with the two text nodes `OK` and `Save`, read by a freshly loaded content script on a
fresh installation. -/
def freshEngine : Engine :=
  Engine.initial emptyChrome [⟨1, some "SPAN", "OK"⟩, ⟨2, some "BUTTON", " Save "⟩]

/-- A content script in its steady state: node 1 was translated under the dictionary
`workItems` and is marked processed; the active backend `local` now holds `okMap`. -/
def steadyEngine : Engine :=
  { translations := workItems, isTranslating := false, processedNodes := [1],
    defaultTranslations := TranslationMap.empty,
    store := ⟨"local", false, { emptyChrome with localCustomTranslations := some okMap }⟩,
    body := [⟨1, some "SPAN", "  Arbeitselemente  "⟩, ⟨2, some "DIV", "OK"⟩],
    started := 1 }

/-- The dictionary with the single entry `"Save" → "Speichern"`. -/
def saveMap : TranslationMap := ⟨[("Save", "Speichern")], by decide⟩

/-- The options page of a fresh installation, before the default asset has been read. -/
def freshOptionsPage : OptionsPage :=
  { store := Store.fresh emptyChrome, currentStorageType := "local",
    defaultTranslations := .object [], selectedLanguagePair := none }

/-- A bare dictionary one of whose source texts is the word `translations`. -/
def translationsKeyMap : TranslationMap :=
  ⟨[("translations", "Übersetzungen"), ("OK", "In Ordnung")], by decide⟩

/-- The request `indexedDB.open` fails; no other platform call does. -/
def openErrorFaults : Faults := { Faults.none with openError := true }

/-- A freshly loaded content script on an installation whose `local` backend holds `okMap`. -/
def storedEngine : Engine :=
  Engine.initial { emptyChrome with localCustomTranslations := some okMap }
    [⟨1, some "SPAN", "OK"⟩]

/-- The content script `steadyEngine` after the persisted selector was set to `indexeddb`. -/
def steadyEngineIndexedDB : Engine :=
  { steadyEngine with
    store := ⟨"local", false,
      { emptyChrome with localCustomTranslations := some okMap,
                         storageType := some "indexeddb" }⟩ }

/-- The settings page after `loadSettings` on a fresh installation: the form shows the
defaults. -/
def freshSettingsPage : SettingsPage :=
  SettingsPage.loadSettings
    { currentSettings := DEFAULT_SETTINGS,
      form := ⟨"", "", false, false, "", "", false, "", false⟩,
      extensionSettings := none }

/-- A page whose text nodes cover every case of the pass under the dictionary `workItems`: a
match, a node without parent element, a node in a `SCRIPT`, a node in a `STYLE`, white space
only, a node already processed, and a text that only contains the key. -/
def mixedEngine : Engine :=
  { translations := workItems, isTranslating := false, processedNodes := [6],
    defaultTranslations := TranslationMap.empty, store := Store.fresh emptyChrome,
    body := [⟨1, some "A", " Work Items"⟩, ⟨2, none, "Work Items"⟩,
      ⟨3, some "SCRIPT", "Work Items"⟩, ⟨4, some "STYLE", "Work Items"⟩,
      ⟨5, some "P", " \n "⟩, ⟨6, some "P", "Work Items"⟩,
      ⟨7, some "P", "Work Items are great"⟩],
    started := 1 }

/-- A store whose active backend `sync` holds exactly 102400 bytes, its full quota. -/
def fullSyncStore : Store :=
  ⟨"sync", false,
    { emptyChrome with syncCustomTranslations := some (fillerMap 102392),
                       storageType := some "sync" }⟩

/-- The options page over `fullSyncStore`, after its initialization. -/
def fullSyncPage : OptionsPage :=
  { store := fullSyncStore, currentStorageType := "sync", defaultTranslations := .object [],
    selectedLanguagePair := none }

/-- A dictionary one of whose source texts is the word `__proto__`, as `JSON.parse` builds it
from the file `{"__proto__": "Prototyp", "Save": "Speichern"}`. -/
def protoMap : TranslationMap := ⟨[("__proto__", "Prototyp"), ("Save", "Speichern")], by decide⟩

/-- A store whose backend `local` holds `protoMap`. -/
def protoLocalStore : Store :=
  ⟨"local", false,
    { emptyChrome with localCustomTranslations := some protoMap, storageType := some "local" }⟩

/-- The options page of an installation whose selector is `indexeddb`, after its
initialization. -/
def indexedDBOptionsPage : OptionsPage :=
  { store := ⟨"indexeddb", false, { emptyChrome with storageType := some "indexeddb" }⟩,
    currentStorageType := "indexeddb", defaultTranslations := .object [],
    selectedLanguagePair := none }

/-- A dictionary one of whose source texts is the word `hasOwnProperty`. -/
def shadowingMap : TranslationMap :=
  ⟨[("hasOwnProperty", "hatEigenschaft"), ("OK", "In Ordnung")], by decide⟩

/-- A content script in its steady state with the dictionary `shadowingMap` on a page with the
two text nodes `OK` and `hasOwnProperty`, none of them processed yet. -/
def shadowingEngine : Engine :=
  { translations := shadowingMap, isTranslating := false, processedNodes := [],
    defaultTranslations := TranslationMap.empty,
    store := ⟨"local", false, { emptyChrome with localCustomTranslations := some shadowingMap }⟩,
    body := [⟨1, some "SPAN", "OK"⟩, ⟨2, some "CODE", "hasOwnProperty"⟩],
    started := 1 }

/-- The dictionary with the single entry `"" → ""`, as `JSON.parse` builds it from the file
`{"": ""}`. -/
def blankMap : TranslationMap := ⟨[("", "")], by decide⟩

/-- The options page of an installation whose backend `local` holds `saveMap`, with the stored
language pair `en-fr`. -/
def storedOptionsPage : OptionsPage :=
  { store := ⟨"local", false,
      { emptyChrome with localCustomTranslations := some saveMap, storageType := some "local" }⟩,
    currentStorageType := "local", defaultTranslations := .object [],
    selectedLanguagePair := some "en-fr" }

/-! ## Lemmas on translation objects and serialization -/

theorem TranslationMap.eq_of_entries {a b : TranslationMap} (h : a.entries = b.entries) :
    a = b := by
  cases a; cases b; simp_all

theorem setEntry_append_of_not_mem (k v : String) (l : List (String × String))
    (h : k ∉ l.map Prod.fst) : setEntry k v l = l ++ [(k, v)] := by
  induction l with
  | nil => rfl
  | cons p rest ih =>
    obtain ⟨k0, v0⟩ := p
    simp only [List.map_cons, List.mem_cons, not_or] at h
    have hne : ¬ k0 = k := fun h0 => h.1 h0.symm
    simp [setEntry, hne, ih h.2]

theorem hasOwnProperty_eq_false_iff (m : TranslationMap) (k : String) :
    m.hasOwnProperty k = false ↔ k ∉ m.keys := by
  unfold TranslationMap.hasOwnProperty TranslationMap.keys
  induction m.entries with
  | nil => simp
  | cons p rest ih =>
    obtain ⟨k0, v0⟩ := p
    by_cases hk : k = k0
    · simp [List.lookup, hk]
    · have hb : (k == k0) = false := by simpa using hk
      simp only [List.lookup, hb, List.map_cons, List.mem_cons, hk, false_or]
      exact ih

theorem set_entries_of_not_proto (m : TranslationMap) (k v : String) (hk : k ≠ "__proto__") :
    (m.set k v).entries = setEntry k v m.entries := by
  simp [TranslationMap.set, hk]

theorem set_proto_of_not_own (m : TranslationMap) (v : String)
    (hown : "__proto__" ∉ m.keys) : m.set "__proto__" v = m := by
  have h := (hasOwnProperty_eq_false_iff m "__proto__").mpr hown
  simp [TranslationMap.set, h]

/-- The object that the assignments of `loadFromIndexedDB` build from the records of a list of
entries with distinct keys: the entries in order, without the entry named `__proto__`. -/
theorem foldl_set_addEntries (l : List (String × String)) (acc : TranslationMap) (n : Nat)
    (hnd : ((acc.entries ++ l).map Prod.fst).Nodup) (hacc : "__proto__" ∉ acc.keys) :
    ((addEntries n l).foldl (fun translations entry => translations.set entry.source entry.target)
      acc).entries = acc.entries ++ l.filter (fun kv => decide (kv.1 ≠ "__proto__")) := by
  induction l generalizing acc n with
  | nil => simp [addEntries]
  | cons p rest ih =>
    obtain ⟨k, v⟩ := p
    simp only [addEntries, List.foldl_cons]
    by_cases hk : k = "__proto__"
    · subst hk
      rw [set_proto_of_not_own acc v hacc]
      have hnd1 : ((acc.entries ++ rest).map Prod.fst).Nodup := by
        simp only [List.map_append, List.map_cons] at hnd ⊢
        exact List.Nodup.sublist
          (List.Sublist.append_left (List.sublist_cons_self _ _) _) hnd
      rw [ih acc (n + 1) hnd1 hacc]
      simp
    · have hfresh : k ∉ acc.entries.map Prod.fst := by
        simp only [List.map_append, List.map_cons] at hnd
        have hdisj := (List.nodup_append.mp hnd).2.2
        intro hin
        exact hdisj hin (List.mem_cons_self _ _)
      have hset : (acc.set k v).entries = acc.entries ++ [(k, v)] := by
        rw [set_entries_of_not_proto acc k v hk]
        exact setEntry_append_of_not_mem k v acc.entries hfresh
      have hacc1 : "__proto__" ∉ (acc.set k v).keys := by
        unfold TranslationMap.keys
        rw [hset]
        simp only [List.map_append, List.map_cons, List.map_nil, List.mem_append,
          List.mem_singleton, not_or]
        exact ⟨hacc, fun h => hk h.symm⟩
      rw [ih (acc.set k v) (n + 1) (by rw [hset]; simpa using hnd) hacc1, hset]
      simp [hk]

/-- Reading back the records that `saveToIndexedDB` wrote for a map rebuilds the map without
its entry named `__proto__`. -/
theorem collectEntries_addEntries_entries (m : TranslationMap) :
    (collectEntries (addEntries 0 m.entries)).entries
      = m.entries.filter (fun kv => decide (kv.1 ≠ "__proto__")) := by
  unfold collectEntries
  rw [foldl_set_addEntries m.entries TranslationMap.empty 0
    (by simpa [TranslationMap.empty] using m.nodup) (by simp [TranslationMap.empty, TranslationMap.keys])]
  simp [TranslationMap.empty]

/-- Reading back the records that `saveToIndexedDB` wrote for a map without an entry named
`__proto__` rebuilds that map. -/
theorem collectEntries_addEntries (m : TranslationMap) (hplain : "__proto__" ∉ m.keys) :
    collectEntries (addEntries 0 m.entries) = m := by
  apply TranslationMap.eq_of_entries
  rw [collectEntries_addEntries_entries]
  apply List.filter_eq_self.mpr
  intro kv hkv
  have hne : kv.1 ≠ "__proto__" := by
    intro h
    exact hplain (List.mem_map.mpr ⟨kv, hkv, h⟩)
  simpa using hne

theorem blobSize_fillerMap (n : Nat) : blobSize (jsonStringify (fillerMap n)) = n + 8 := by
  have hq : ∀ n : Nat, (List.replicate n 'a').flatMap quoteJSONChar = List.replicate n 'a' := by
    intro n
    induction n with
    | zero => rfl
    | succ n ih =>
      rw [List.replicate_succ, List.flatMap_cons, ih]
      rfl
  have hs : ∀ n : Nat, ((List.replicate n 'a').map Char.utf8Size).sum = n := by
    intro n
    induction n with
    | zero => rfl
    | succ n ih =>
      rw [List.replicate_succ, List.map_cons, List.sum_cons, ih]
      have : Char.utf8Size 'a' = 1 := by decide
      omega
  have h1 : Char.utf8Size doubleQuote = 1 := by decide
  have h2 : Char.utf8Size ':' = 1 := by decide
  have h3 : Char.utf8Size 'k' = 1 := by decide
  have h4 : Char.utf8Size (Char.ofNat 0x7B) = 1 := by decide
  have h5 : Char.utf8Size (Char.ofNat 0x7D) = 1 := by decide
  have hk : "k".data.flatMap quoteJSONChar = ['k'] := by decide
  simp only [blobSize, jsonStringify, fillerMap, jsonMembers, quoteJSONString, hq, hk,
    List.map_cons, List.map_append, List.sum_cons, List.sum_append, List.cons_append,
    List.nil_append, hs, h1, h2, h3, h4, h5, List.map_nil, List.sum_nil, List.append_nil]
  omega

/-! ## The dictionary store: round trip and quota -/

/-- Round trip, as far as it holds: for each backend `b` and every map `m` whose serialization
is within the capacity of `b` and which, when `b` is the IndexedDB backend, has no entry named
`__proto__`, with `b` the active backend and no platform call failing, `save m` succeeds and a
following `load` returns `m`, whatever the store held before. -/
theorem save_load_roundtrip (b : Backend) (m : TranslationMap) (pfLoad : Faults) (s : Store)
    (hactive : s.currentStorageType = b.id) (hfit : withinCapacity b m)
    (hread : pfLoad.requestError = false)
    (hplain : b = .indexedDB → "__proto__" ∉ m.keys) :
    ∃ s1, save Faults.none m s = (.ok (), s1) ∧ (load pfLoad s1).1 = .ok m := by
  cases b
  · simp only [withinCapacity, Backend.capacity] at hfit
    have hsz : ¬ blobSize (jsonStringify m) > 100 * 1024 := by omega
    simp [save, load, saveToChromeSync, loadFromChromeSync, hactive, Backend.id, hsz,
      Faults.none]
  · simp only [withinCapacity, Backend.capacity] at hfit
    have hsz : ¬ blobSize (jsonStringify m) > 10 * 1024 * 1024 := by omega
    simp [save, load, saveToChromeLocal, loadFromChromeLocal, hactive, Backend.id, hsz,
      Faults.none]
  · cases hi : s.indexedDB_instance <;>
    simp [save, load, saveToIndexedDB, loadFromIndexedDB, initIndexedDB, hactive, Backend.id,
      Faults.none, hi, hread, collectEntries_addEntries m (hplain rfl)]

/-- Example of the round trip: saving `{"OK": "In Ordnung"}` to the IndexedDB backend over older
records and loading it back. -/
theorem save_load_roundtrip_example :
    ∃ s1, save Faults.none okMap
        ⟨"indexeddb", false, { emptyChrome with objectStore := [⟨0, "Save", "Speichern"⟩] }⟩
        = (.ok (), s1) ∧ (load Faults.none s1).1 = .ok okMap :=
  save_load_roundtrip .indexedDB okMap Faults.none
    ⟨"indexeddb", false, { emptyChrome with objectStore := [⟨0, "Save", "Speichern"⟩] }⟩
    rfl trivial rfl (fun _ => by decide)

/-- Over the quota of `sync`, `save` rejects and returns the store it was given. -/
theorem save_sync_over_quota (m : TranslationMap) (pf : Faults) (s : Store)
    (hactive : s.currentStorageType = "sync") (hsize : blobSize (jsonStringify m) > 102400) :
    save pf m s =
      (.error (.error ("Data too large for chrome.storage.sync! Limit: 100 KB, Current: " ++
        toFixed2 (blobSize (jsonStringify m)) 1024 ++ " KB")), s) := by
  have hsz : blobSize (jsonStringify m) > 100 * 1024 := by omega
  simp [save, saveToChromeSync, hactive, hsz]

/-- C2. Quota rejection is atomic: when the active backend is `sync` and the serialization of
`m` has more than 102400 bytes, or the active backend is `local` and it has more than 10485760
bytes, `save m` rejects with an error whose message names the limit and the computed size, and
the store afterwards is the store before: no write was requested (the counter of data writes
is the same), every backend holds what it held, and so `load` returns what it returned. -/
theorem save_quota_rejection (m : TranslationMap) (pf : Faults) (s : Store) :
    (s.currentStorageType = "sync" → blobSize (jsonStringify m) > 102400 →
      save pf m s =
        (.error (.error ("Data too large for chrome.storage.sync! Limit: 100 KB, Current: " ++
          toFixed2 (blobSize (jsonStringify m)) 1024 ++ " KB")), s)) ∧
    (s.currentStorageType = "local" → blobSize (jsonStringify m) > 10485760 →
      save pf m s =
        (.error (.error ("Data too large for chrome.storage.local! Limit: 10 MB, Current: " ++
          toFixed2 (blobSize (jsonStringify m)) (1024 * 1024) ++ " MB")), s)) := by
  constructor
  · intro hactive hsize
    exact save_sync_over_quota m pf s hactive hsize
  · intro hactive hsize
    have hsz : blobSize (jsonStringify m) > 10 * 1024 * 1024 := by omega
    simp [save, saveToChromeLocal, hactive, hsz]

/-- Witness of C2: a map of 102408 bytes is rejected by the `sync` backend. -/
theorem save_quota_rejection_witness :
    save Faults.none (fillerMap 102400) ⟨"sync", false, emptyChrome⟩ =
      (.error (.error ("Data too large for chrome.storage.sync! Limit: 100 KB, Current: " ++
        toFixed2 (blobSize (jsonStringify (fillerMap 102400))) 1024 ++ " KB")),
        ⟨"sync", false, emptyChrome⟩) :=
  (save_quota_rejection (fillerMap 102400) Faults.none ⟨"sync", false, emptyChrome⟩).1 rfl
    (by rw [blobSize_fillerMap]; decide)

/-! ## The dictionary store: migration and the backend selector -/

/-- With no platform failure, `load` under backend `A` returns the data held by `A`. -/
theorem load_eq_heldBy (A : Backend) (s : Store) :
    load Faults.none { s with currentStorageType := A.id } =
      (.ok (heldBy A s.chrome),
        { s with currentStorageType := A.id,
                 indexedDB_instance := if A = .indexedDB then true else s.indexedDB_instance }) := by
  cases A
  · simp [load, loadFromChromeSync, Backend.id, heldBy]
  · simp [load, loadFromChromeLocal, Backend.id, heldBy]
  · cases hi : s.indexedDB_instance <;>
    simp [load, loadFromIndexedDB, initIndexedDB, Backend.id, heldBy, Faults.none, hi]

/-- Migration, as far as it succeeds: for all backends `A` and `B` and every store in which the
data held by `A` (the map that `load` returns under `A`) fits the quota of `B` and, when `B` is
the IndexedDB backend, has no entry named `__proto__`, with no platform call failing,
`migrate A B` succeeds, a following `load` returns that same map, and the active backend is `B`
both in memory and in the persisted selector. -/
theorem migrate_success (A B : Backend) (s : Store)
    (hfit : withinCapacity B (heldBy A s.chrome))
    (hplain : B = .indexedDB → "__proto__" ∉ (heldBy A s.chrome).keys) :
    (load Faults.none { s with currentStorageType := A.id }).1 = .ok (heldBy A s.chrome) ∧
    ∃ s1, migrate Faults.none Faults.none A.id B.id s = (.ok (heldBy A s.chrome), s1) ∧
      (load Faults.none s1).1 = .ok (heldBy A s.chrome) ∧
      getStorageType s1 = B.id ∧ s1.chrome.storageType = some B.id := by
  refine ⟨by rw [load_eq_heldBy], ?_⟩
  unfold migrate
  simp only [load_eq_heldBy]
  cases B
  · simp only [withinCapacity, Backend.capacity] at hfit
    have hsz : ¬ blobSize (jsonStringify (heldBy A s.chrome)) > 100 * 1024 := by omega
    simp [save, load, saveToChromeSync, loadFromChromeSync, Backend.id, hsz,
      Faults.none, setStorageType, getStorageType]
  · simp only [withinCapacity, Backend.capacity] at hfit
    have hsz : ¬ blobSize (jsonStringify (heldBy A s.chrome)) > 10 * 1024 * 1024 := by omega
    simp [save, load, saveToChromeLocal, loadFromChromeLocal, Backend.id, hsz,
      Faults.none, setStorageType, getStorageType]
  · have hback := collectEntries_addEntries (heldBy A s.chrome) (hplain rfl)
    cases hi : s.indexedDB_instance <;> cases A <;>
    simp [save, load, saveToIndexedDB, loadFromIndexedDB, initIndexedDB, Backend.id,
      Faults.none, hi, hback, setStorageType, getStorageType]

/-- Example of a migration: 102408 bytes of data from `local` to the IndexedDB backend. -/
theorem migrate_success_example :
    (load Faults.none { overSyncQuotaStore with currentStorageType := "local" }).1
        = .ok (fillerMap 102400) ∧
    ∃ s1, migrate Faults.none Faults.none "local" "indexeddb" overSyncQuotaStore
        = (.ok (fillerMap 102400), s1) ∧
      (load Faults.none s1).1 = .ok (fillerMap 102400) ∧
      getStorageType s1 = "indexeddb" ∧ s1.chrome.storageType = some "indexeddb" :=
  migrate_success .chromeLocal .indexedDB overSyncQuotaStore trivial
    (fun _ => by
      have hkeys : (heldBy .chromeLocal overSyncQuotaStore.chrome).keys = ["k"] := rfl
      rw [hkeys]
      decide)

/-- When the save step of `migrate` rejects, the in-memory selector is left at the target
backend: the source assigns `toType` before the save and never restores `oldType`. -/
theorem migrate_save_failure (pfLoad pfSave : Faults) (fromType toType : String) (s : Store)
    (translations : TranslationMap) (s2 : Store) (err : StoreError) (s4 : Store)
    (hload : load pfLoad { s with currentStorageType := fromType } = (.ok translations, s2))
    (hsave : save pfSave translations { s2 with currentStorageType := toType } = (.error err, s4))
    (hvalid : toType ∈ ["sync", "local", "indexeddb"]) :
    migrate pfLoad pfSave fromType toType s = (.error err, s4) ∧
      getStorageType s4 = toType ∧ s4.chrome.storageType = s.chrome.storageType := by
  have hmig : migrate pfLoad pfSave fromType toType s = (.error err, s4) := by
    simp [migrate, hload, hsave]
  refine ⟨hmig, ?_⟩
  have hs2 : s2.chrome = s.chrome := by
    by_cases h1 : fromType = "sync"
    · simp [load, loadFromChromeSync, h1] at hload
      rw [← hload.2]
    · by_cases h2 : fromType = "local"
      · simp [load, loadFromChromeLocal, h2] at hload
        rw [← hload.2]
      · by_cases h3 : fromType = "indexeddb"
        · cases hi : s.indexedDB_instance <;> cases ho : pfLoad.openError <;>
            cases hr : pfLoad.requestError <;>
            simp [load, loadFromIndexedDB, initIndexedDB, h3, hi, ho, hr] at hload <;>
            rw [← hload.2]
        · simp [load, h1, h2, h3] at hload
  simp only [List.mem_cons, List.mem_singleton, List.not_mem_nil, or_false] at hvalid
  rcases hvalid with h | h | h
  · subst h
    by_cases hz : blobSize (jsonStringify translations) > 100 * 1024 <;>
      cases hf : pfSave.syncSetLastError <;>
      simp [save, saveToChromeSync, hz, hf] at hsave <;>
      simp [← hsave.2, getStorageType, hs2]
  · subst h
    by_cases hz : blobSize (jsonStringify translations) > 10 * 1024 * 1024 <;>
      cases hf : pfSave.localSetLastError <;>
      simp [save, saveToChromeLocal, hz, hf] at hsave <;>
      simp [← hsave.2, getStorageType, hs2]
  · subst h
    cases hi : s2.indexedDB_instance <;> cases ho : pfSave.openError <;>
      cases ht : pfSave.transactionError <;>
      simp [save, saveToIndexedDB, initIndexedDB, hi, ho, ht] at hsave <;>
      simp [← hsave.2, getStorageType, hs2]

/-- C4, evaluated on the code: with `local` active and holding 102408 bytes, `migrate local sync`
rejects at the save step (the data exceeds the quota of `sync`); afterwards the persisted
selector is still `local`, but `getStorageType` returns `sync` and a following `load` reads the
`sync` backend and returns the empty map instead of the data held by `local`. -/
theorem migrate_failure_selects_target :
    (∃ err, (migrate Faults.none Faults.none "local" "sync" overSyncQuotaStore).1 = .error err) ∧
    getStorageType overSyncQuotaStore = "local" ∧
    getStorageType (migrate Faults.none Faults.none "local" "sync" overSyncQuotaStore).2 = "sync" ∧
    (migrate Faults.none Faults.none "local" "sync" overSyncQuotaStore).2.chrome.storageType
      = some "local" ∧
    (load Faults.none (migrate Faults.none Faults.none "local" "sync" overSyncQuotaStore).2).1
      = .ok TranslationMap.empty ∧
    (load Faults.none overSyncQuotaStore).1 = .ok (fillerMap 102400) := by
  have hsz : blobSize (jsonStringify (fillerMap 102400)) > 102400 := by
    rw [blobSize_fillerMap]; decide
  have hload : load Faults.none { overSyncQuotaStore with currentStorageType := "local" }
      = (.ok (fillerMap 102400), overSyncQuotaStore) := by
    simp [load, loadFromChromeLocal, overSyncQuotaStore]
  have hsave := save_sync_over_quota (fillerMap 102400) Faults.none
    { overSyncQuotaStore with currentStorageType := "sync" } rfl hsz
  have hmig := (migrate_save_failure Faults.none Faults.none "local" "sync" overSyncQuotaStore
    _ _ _ _ hload hsave (by decide)).1
  rw [hmig]
  refine ⟨⟨_, rfl⟩, rfl, rfl, rfl, ?_, ?_⟩
  · simp [load, loadFromChromeSync, overSyncQuotaStore, emptyChrome]
  · simp [load, loadFromChromeLocal, overSyncQuotaStore]

/-- C5. The call `setStorageType id` rejects exactly when `id` is none of `sync`, `local`,
`indexeddb`; when it rejects the store is unchanged (in-memory and persisted selector included);
when it resolves both selectors equal `id` and the translation data of every backend is
unchanged, no data write having been requested. -/
theorem setStorageType_spec (type : String) (s : Store) :
    ((∃ err, (setStorageType type s).1 = .error err) ↔
      ¬ (type = "sync" ∨ type = "local" ∨ type = "indexeddb")) ∧
    ((∃ err, (setStorageType type s).1 = .error err) → (setStorageType type s).2 = s) ∧
    ((setStorageType type s).1 = .ok () →
      (setStorageType type s).2.currentStorageType = type ∧
      (setStorageType type s).2.chrome.storageType = some type ∧
      (setStorageType type s).2.chrome.syncCustomTranslations = s.chrome.syncCustomTranslations ∧
      (setStorageType type s).2.chrome.localCustomTranslations
        = s.chrome.localCustomTranslations ∧
      (setStorageType type s).2.chrome.objectStore = s.chrome.objectStore ∧
      (setStorageType type s).2.chrome.dataWrites = s.chrome.dataWrites) := by
  by_cases h : type = "sync" ∨ type = "local" ∨ type = "indexeddb"
  · have hm : type ∈ ["sync", "local", "indexeddb"] := by simpa using h
    simp [setStorageType, hm, h]
  · have hm : ¬ type ∈ ["sync", "local", "indexeddb"] := by simpa using h
    simp [setStorageType, hm, h]

/-- Witness of C5: selecting `sync` on a store whose `local` backend holds data, and the rejected
identifier `SYNC`. -/
theorem setStorageType_spec_witness :
    ((setStorageType "sync" overSyncQuotaStore).2.currentStorageType = "sync" ∧
      (setStorageType "sync" overSyncQuotaStore).2.chrome.storageType = some "sync" ∧
      (setStorageType "sync" overSyncQuotaStore).2.chrome.syncCustomTranslations
        = overSyncQuotaStore.chrome.syncCustomTranslations ∧
      (setStorageType "sync" overSyncQuotaStore).2.chrome.localCustomTranslations
        = overSyncQuotaStore.chrome.localCustomTranslations ∧
      (setStorageType "sync" overSyncQuotaStore).2.chrome.objectStore
        = overSyncQuotaStore.chrome.objectStore ∧
      (setStorageType "sync" overSyncQuotaStore).2.chrome.dataWrites
        = overSyncQuotaStore.chrome.dataWrites) ∧
    (setStorageType "SYNC" overSyncQuotaStore).2 = overSyncQuotaStore :=
  ⟨(setStorageType_spec "sync" overSyncQuotaStore).2.2 rfl,
    (setStorageType_spec "SYNC" overSyncQuotaStore).2.1
      ((setStorageType_spec "SYNC" overSyncQuotaStore).1.mpr (by decide))⟩

/-- C6. The call `init` returns the persisted backend selector (any non-empty value of the key
`storageType`), or `local` when none is persisted; it sets the in-memory selector to the value it
returns and leaves the persisted data as it is; and it is idempotent: a second call returns the
same value and leaves the state the first call left. -/
theorem init_spec (s : Store) :
    (∀ selector, s.chrome.storageType = some selector → selector ≠ "" → (init s).1 = selector) ∧
    (s.chrome.storageType = none → (init s).1 = "local") ∧
    (init s).2.currentStorageType = (init s).1 ∧
    (init s).2.chrome = s.chrome ∧
    (init s).2.indexedDB_instance = s.indexedDB_instance ∧
    init (init s).2 = init s := by
  refine ⟨?_, ?_, rfl, rfl, rfl, rfl⟩
  · intro selector h hne
    simp [init, orElse, h, hne]
  · intro h
    simp [init, orElse, h]

/-- Witness of C6: a persisted selector `indexeddb` is returned, an absent one gives `local`. -/
theorem init_spec_witness :
    (init ⟨"local", false, { emptyChrome with storageType := some "indexeddb" }⟩).1 = "indexeddb" ∧
    (init ⟨"sync", false, emptyChrome⟩).1 = "local" :=
  ⟨(init_spec ⟨"local", false, { emptyChrome with storageType := some "indexeddb" }⟩).1
      "indexeddb" rfl (by decide),
    (init_spec ⟨"sync", false, emptyChrome⟩).2.1 rfl⟩

/-! ## The localization engine: one node, one pass -/

/-- Exact-match substitution under the own-property test: for every unprocessed text node and
every dictionary `d`, if the whole trimmed text of the node is a key of `d` with value `value`,
the function sets the text to the leading white space, `value` and the trailing white space,
marks the node processed and returns `true`; if the trimmed text is not a key of `d`, the node
and the processed set are left exactly as they were and `false` is returned. -/
theorem translateTextNode_exact (d : TranslationMap) (processed : List Nat) (node : TextNode)
    (hnew : node.id ∉ processed) :
    (∀ value, d.get? (jsTrim node.textContent) = some value →
      translateTextNode d processed node =
        (true,
          { node with textContent := matchLeadingWhitespace node.textContent ++ value ++
              matchTrailingWhitespace node.textContent },
          node.id :: processed)) ∧
    (d.hasOwnProperty (jsTrim node.textContent) = false →
      translateTextNode d processed node = (false, node, processed)) := by
  constructor
  · intro value hkey
    simp [translateTextNode, hnew, hkey]
  · intro hkey
    have hnone : d.get? (jsTrim node.textContent) = none := by
      simpa [TranslationMap.hasOwnProperty, TranslationMap.get?] using hkey
    simp [translateTextNode, hnew, hnone]

/-- Example: with the entry `"Work Items" → "Arbeitselemente"`, the text `"  Work Items  "`
becomes `"  Arbeitselemente  "`, and the text `"Work Items are great"` is left untouched. -/
theorem translateTextNode_exact_example :
    translateTextNode workItems [] ⟨1, some "SPAN", "  Work Items  "⟩ =
      (true, ⟨1, some "SPAN", "  Arbeitselemente  "⟩, [1]) ∧
    translateTextNode workItems [] ⟨2, some "SPAN", "Work Items are great"⟩ =
      (false, ⟨2, some "SPAN", "Work Items are great"⟩, []) :=
  ⟨(translateTextNode_exact workItems [] ⟨1, some "SPAN", "  Work Items  "⟩ (by decide)).1
      "Arbeitselemente" (by decide),
    (translateTextNode_exact workItems [] ⟨2, some "SPAN", "Work Items are great"⟩
      (by decide)).2 (by decide)⟩

/-- A node that `translateTextNode` has handled is left alone by a later call under any processed
set that contains the one the first call produced. -/
theorem translateTextNode_stable (d : TranslationMap) (P Q : List Nat) (node : TextNode)
    (hsub : (translateTextNode d P node).2.2 ⊆ Q) :
    translateTextNode d Q (translateTextNode d P node).2.1 =
      (false, (translateTextNode d P node).2.1, Q) := by
  unfold translateTextNode at hsub ⊢
  by_cases hP : node.id ∈ P
  · simp only [hP, if_true] at hsub ⊢
    simp [hsub hP]
  · simp only [hP, if_false] at hsub ⊢
    cases hkey : d.get? (jsTrim node.textContent) with
    | none =>
      simp only [hkey] at hsub ⊢
      by_cases hQ : node.id ∈ Q <;> simp [hQ, hkey]
    | some value =>
      simp only [hkey] at hsub ⊢
      have hQ : node.id ∈ Q := hsub (List.mem_cons_self _ _)
      simp [hQ]

theorem translateTextNode_subset (d : TranslationMap) (P : List Nat) (node : TextNode) :
    P ⊆ (translateTextNode d P node).2.2 := by
  unfold translateTextNode
  by_cases hP : node.id ∈ P
  · simp [hP]
  · cases hkey : d.get? (jsTrim node.textContent) <;> simp [hP, hkey]

theorem translateNodes_subset (d : TranslationMap) (nodes : List TextNode) :
    ∀ P, P ⊆ (translateNodes d P nodes).2.2 := by
  induction nodes with
  | nil => intro P; simp [translateNodes]
  | cons node rest ih =>
    intro P
    by_cases hacc : acceptNode node = true
    · have h1 := translateTextNode_subset d P node
      rcases hstep : translateTextNode d P node with ⟨translated, node1, P1⟩
      rw [hstep] at h1
      have h2 := ih P1
      rcases hrest : translateNodes d P1 rest with ⟨count, rest1, P2⟩
      rw [hrest] at h2
      simp only [translateNodes, hacc, if_true, hstep, hrest]
      exact fun a ha => h2 (h1 ha)
    · have h2 := ih P
      rcases hrest : translateNodes d P rest with ⟨count, rest1, P2⟩
      rw [hrest] at h2
      simp only [translateNodes, hacc, hrest]
      exact h2

/-- A pass over the nodes that a pass has produced, under any processed set that contains the one
the first pass produced, translates nothing and changes nothing. -/
theorem translateNodes_stable (d : TranslationMap) (nodes : List TextNode) :
    ∀ P Q, (translateNodes d P nodes).2.2 ⊆ Q →
      translateNodes d Q (translateNodes d P nodes).2.1 =
        (0, (translateNodes d P nodes).2.1, Q) := by
  induction nodes with
  | nil => intro P Q _; simp [translateNodes]
  | cons node rest ih =>
    intro P Q hsub
    by_cases hacc : acceptNode node = true
    · have hst := translateTextNode_stable d P Q node
      rcases hstep : translateTextNode d P node with ⟨translated, node1, P1⟩
      have hmono := translateNodes_subset d rest P1
      have hrec := ih P1 Q
      rcases hrest : translateNodes d P1 rest with ⟨count, rest1, P2⟩
      rw [hstep] at hst
      rw [hrest] at hmono hrec
      simp only [translateNodes, hacc, if_true, hstep, hrest] at hsub ⊢
      have hrec1 := hrec hsub
      have hst1 := hst (fun a ha => hsub (hmono ha))
      simp only at hrec1 hst1
      by_cases hacc1 : acceptNode node1 = true
      · simp [translateNodes, hacc1, hst1, hrec1]
      · simp [translateNodes, hacc1, hrec1]
    · have hrec := ih P Q
      rcases hrest : translateNodes d P rest with ⟨count, rest1, P2⟩
      rw [hrest] at hrec
      simp only [translateNodes, hacc, hrest] at hsub ⊢
      have hrec1 := hrec hsub
      simp only at hrec1
      simp [translateNodes, hacc, hrec1]

/-- C8. Pass idempotence: for every document, dictionary and processed set, a second run of
`translateDocument` right after a first one translates zero nodes and leaves every node, the
processed set and the rest of the state exactly as the first run left them. -/
theorem translateDocument_idempotent (e : Engine) :
    translateDocument (translateDocument e).2 = (0, (translateDocument e).2) := by
  unfold translateDocument
  by_cases hbusy : e.isTranslating = true
  · simp [hbusy]
  · have hst := translateNodes_stable e.translations e.body e.processedNodes
      (translateNodes e.translations e.processedNodes e.body).2.2 (fun _ h => h)
    rcases hpass : translateNodes e.translations e.processedNodes e.body with ⟨count, body1, P1⟩
    rw [hpass] at hst
    simp only at hst
    simp [hbusy, hpass, hst]


/-! ## The localization engine: dictionary changes and bootstrap -/

/-- C9. Dictionary-change reset: when the notification lists the key `customTranslations` or the
key `storageType` and the reload succeeds (`load` under the persisted selector returns `loaded`),
the in-memory dictionary becomes `loaded` and a pass is run that starts from the empty processed
set, so every node is examined again; a notification that lists neither key changes nothing. -/
theorem onChanged_reset (pf : Faults) (changes : List String) (areaName : String) (e : Engine) :
    (("customTranslations" ∈ changes ∨ "storageType" ∈ changes) →
      ∀ loaded st,
        load pf { e.store with currentStorageType := orElse e.store.chrome.storageType "local" }
          = (.ok loaded, st) →
        e.isTranslating = false →
          (onChanged pf changes areaName e).translations = loaded ∧
          (onChanged pf changes areaName e).body = (translateNodes loaded [] e.body).2.1 ∧
          (onChanged pf changes areaName e).processedNodes
            = (translateNodes loaded [] e.body).2.2 ∧
          onChanged pf changes areaName e =
            (translateDocument
              { e with store := st, translations := loaded, processedNodes := [] }).2) ∧
    (¬ ("customTranslations" ∈ changes ∨ "storageType" ∈ changes) →
      onChanged pf changes areaName e = e) := by
  constructor
  · intro hkeys loaded st hload hidle
    have hload1 : load pf (init e.store).2 = (.ok loaded, st) := hload
    rcases hpass : translateNodes loaded [] e.body with ⟨count, body1, P1⟩
    simp [onChanged, hkeys, hload1, translateDocument, hidle, hpass]
  · intro hkeys
    simp [onChanged, hkeys]

/-- Witness of C9: node 1 had been translated and marked under the old dictionary; after a
notification for `customTranslations` the dictionary is the stored one, node 1 is no longer
marked, and node 2 has been translated by the pass. -/
theorem onChanged_reset_witness :
    ((onChanged Faults.none ["customTranslations"] "local" steadyEngine).translations = okMap ∧
      (onChanged Faults.none ["customTranslations"] "local" steadyEngine).body
        = (translateNodes okMap [] steadyEngine.body).2.1 ∧
      (onChanged Faults.none ["customTranslations"] "local" steadyEngine).processedNodes
        = (translateNodes okMap [] steadyEngine.body).2.2 ∧
      onChanged Faults.none ["customTranslations"] "local" steadyEngine =
        (translateDocument
          { steadyEngine with store := steadyEngine.store, translations := okMap,
                              processedNodes := [] }).2) ∧
    onChanged Faults.none ["extensionSettings"] "local" steadyEngine = steadyEngine :=
  ⟨(onChanged_reset Faults.none ["customTranslations"] "local" steadyEngine).1 (by decide)
      okMap steadyEngine.store rfl rfl,
    (onChanged_reset Faults.none ["extensionSettings"] "local" steadyEngine).2 (by decide)⟩

/-- The bootstrap does not depend on the fetched asset: the value of `loadDefaultTranslations()`
is dropped and the variable `defaultTranslations` is never assigned. -/
theorem initializeTranslations_ignores_asset (asset : FetchOutcome)
    (pfLoad pfSave pfInfo : Faults) (e : Engine) :
    initializeTranslations asset pfLoad pfSave pfInfo e =
      initializeTranslations .networkError pfLoad pfSave pfInfo e := rfl

/-- C10, evaluated on the code: on a fresh installation with the default asset
`{"OK": "In Ordnung"}`, which `loadDefaultTranslations` does return, the bootstrap ends with the
empty map as the in-memory dictionary, writes the empty map to the store, and leaves the text
node `OK` untranslated. -/
theorem initializeTranslations_drops_default :
    loadDefaultTranslations okAsset = .object [("OK", .string "In Ordnung")] ∧
    (initializeTranslations okAsset Faults.none Faults.none Faults.none freshEngine).translations
      = TranslationMap.empty ∧
    (initializeTranslations okAsset Faults.none Faults.none Faults.none
      freshEngine).store.chrome.localCustomTranslations = some TranslationMap.empty ∧
    (load Faults.none (initializeTranslations okAsset Faults.none Faults.none Faults.none
      freshEngine).store).1 = .ok TranslationMap.empty ∧
    (initializeTranslations okAsset Faults.none Faults.none Faults.none freshEngine).body
      = [⟨1, some "SPAN", "OK"⟩, ⟨2, some "BUTTON", " Save "⟩] := by
  refine ⟨rfl, ?_, ?_, ?_, ?_⟩ <;> first | decide | rfl

/-! ## The options page: import and the default asset -/

theorem stringMembers_toJson (l : List (String × String)) :
    stringMembers (l.map fun kv => (kv.1, JsonValue.string kv.2)) = some l := by
  induction l with
  | nil => rfl
  | cons kv rest ih =>
    obtain ⟨k, v⟩ := kv
    simp [stringMembers, ih]

/-- Reading the serialization of a translation object gives the object back. -/
theorem asTranslationMap_toJson (m : TranslationMap) : m.toJson.asTranslationMap = some m := by
  simp [TranslationMap.toJson, JsonValue.asTranslationMap, stringMembers_toJson, m.nodup]

theorem lookup_toJson (l : List (String × String)) (k : String) :
    (l.map fun kv => (kv.1, JsonValue.string kv.2)).lookup k
      = (l.lookup k).map JsonValue.string := by
  induction l with
  | nil => rfl
  | cons kv rest ih =>
    obtain ⟨k0, v0⟩ := kv
    simp only [List.map_cons, List.lookup_cons]
    cases hk : (k == k0) <;> simp [ih]

/-- A bare map of strings is taken as the legacy format even when one of its keys is
`translations`: the value of that key is a string, not an object. -/
theorem importSelection_toJson (m : TranslationMap) :
    Options.importSelection (m.entries.map fun kv => (kv.1, JsonValue.string kv.2))
      = (m.toJson, .string "en-de") := by
  unfold Options.importSelection
  rw [lookup_toJson]
  cases h : m.entries.lookup "translations" <;>
    simp [JsonValue.typeofObject, TranslationMap.toJson]

/-- The store steps of a successful import: `saveTranslations`, `saveLanguagePair` and
`renderTranslations` leave the map in the active backend and the pair in the metadata; on the
IndexedDB backend this is so for a map without an entry named `__proto__`. -/
theorem import_store_steps (b : Backend) (t : TranslationMap) (pair : String) (p : OptionsPage)
    (hne : t.entries ≠ []) (hfit : withinCapacity b t)
    (hactive : p.store.currentStorageType = b.id)
    (hselector : orElse p.store.chrome.storageType "local" = b.id)
    (hplain : b = .indexedDB → "__proto__" ∉ t.keys) :
    ∃ p1 p2, Options.saveTranslations Faults.none Faults.none t p = (.ok (), p1) ∧
      Options.renderTranslations Faults.none Faults.none (Options.saveLanguagePair pair p1)
        = some p2 ∧
      (load Faults.none p2.store).1 = .ok t ∧ p2.selectedLanguagePair = some pair := by
  have hlen : ¬ t.entries.length = 0 := by
    intro h; exact hne (List.length_eq_zero.mp h)
  obtain ⟨store, cur, defs, lp⟩ := p
  obtain ⟨sel, inst, chrome⟩ := store
  simp only at hactive hselector
  subst hactive
  cases b
  · simp only [withinCapacity, Backend.capacity] at hfit
    have hsz : ¬ blobSize (jsonStringify t) > 100 * 1024 := by omega
    simp [Options.saveTranslations, Options.renderTranslations, Options.loadTranslations,
      Options.saveLanguagePair, save, load, saveToChromeSync, loadFromChromeSync, Backend.id, hsz,
      Faults.none, getStorageInfo, init, hselector, getStorageType, TranslationMap.keys, hlen, hne]
  · simp only [withinCapacity, Backend.capacity] at hfit
    have hsz : ¬ blobSize (jsonStringify t) > 10 * 1024 * 1024 := by omega
    simp [Options.saveTranslations, Options.renderTranslations, Options.loadTranslations,
      Options.saveLanguagePair, save, load, saveToChromeLocal, loadFromChromeLocal, Backend.id, hsz,
      Faults.none, getStorageInfo, init, hselector, getStorageType, TranslationMap.keys, hlen, hne]
  · have hback := collectEntries_addEntries t (hplain rfl)
    cases inst <;>
    simp [Options.saveTranslations, Options.renderTranslations, Options.loadTranslations,
      Options.saveLanguagePair, save, load, saveToIndexedDB, loadFromIndexedDB, initIndexedDB,
      Backend.id, Faults.none, getStorageInfo, init, hselector, getStorageType,
      TranslationMap.keys, hlen, hne, hback]

/-- Import, as far as it succeeds: for every import file of the export shape, an object whose
member `translations` is a non-empty map `t` that fits the quota of the active backend (and has
no entry named `__proto__` when that backend is IndexedDB) and whose member `languagePair` is a
non-empty string `pair`, with the selector of the page the persisted one and no platform call
failing, after the import handler `load` returns exactly `t` and the stored language pair is
`pair`; for the bare map `t` as the file, `load` returns `t` and the stored language pair is
`en-de`. -/
theorem import_success (b : Backend) (t : TranslationMap) (pair : String)
    (members : List (String × JsonValue)) (p : OptionsPage)
    (hne : t.entries ≠ []) (hpair : pair ≠ "") (hfit : withinCapacity b t)
    (hactive : p.store.currentStorageType = b.id)
    (hselector : orElse p.store.chrome.storageType "local" = b.id)
    (hplain : b = .indexedDB → "__proto__" ∉ t.keys)
    (htranslations : members.lookup "translations" = some t.toJson)
    (hlanguagePair : members.lookup "languagePair" = some (.string pair)) :
    (∃ p1, Options.importOnChange Faults.none Faults.none Faults.none Faults.none
        (.parsed (.object members)) p = some (.imported t.keys.length, p1) ∧
      (load Faults.none p1.store).1 = .ok t ∧ p1.selectedLanguagePair = some pair) ∧
    (∃ p1, Options.importOnChange Faults.none Faults.none Faults.none Faults.none
        (.parsed t.toJson) p = some (.imported t.keys.length, p1) ∧
      (load Faults.none p1.store).1 = .ok t ∧ p1.selectedLanguagePair = some "en-de") := by
  have hcount : ¬ t.toJson.keyCount = 0 := by
    simpa [TranslationMap.toJson, JsonValue.keyCount] using hne
  constructor
  · obtain ⟨p1, p2, hsave, hrender, hload, hpairStored⟩ :=
      import_store_steps b t pair p hne hfit hactive hselector hplain
    refine ⟨p2, ?_, hload, hpairStored⟩
    have hsel : Options.importSelection members = (t.toJson, .string pair) := by
      simp [Options.importSelection, htranslations, hlanguagePair, memberOr, JsonValue.truthy,
        JsonValue.typeofObject, TranslationMap.toJson, hpair]
    simp [Options.importOnChange, JsonValue.typeofObject, JsonValue.isArray, hsel, hcount,
      asTranslationMap_toJson, hsave, hrender]
  · obtain ⟨p1, p2, hsave, hrender, hload, hpairStored⟩ :=
      import_store_steps b t "en-de" p hne hfit hactive hselector hplain
    refine ⟨p2, ?_, hload, hpairStored⟩
    have hsel := importSelection_toJson t
    have hjson : t.toJson = .object (t.entries.map fun kv => (kv.1, JsonValue.string kv.2)) := rfl
    rw [hjson]
    simp only [Options.importOnChange, JsonValue.typeofObject, JsonValue.isArray, hsel]
    simp [hcount, asTranslationMap_toJson, hsave, hrender]

/-- Example of an import: the file `{"translations": {"Save": "Speichern"}, "languagePair":
"en-de"}` on a fresh installation. -/
theorem import_success_example :
    (∃ p1, Options.importOnChange Faults.none Faults.none Faults.none Faults.none
        (.parsed (.object [("translations", saveMap.toJson), ("languagePair", .string "en-de")]))
        freshOptionsPage = some (.imported saveMap.keys.length, p1) ∧
      (load Faults.none p1.store).1 = .ok saveMap ∧ p1.selectedLanguagePair = some "en-de") ∧
    (∃ p1, Options.importOnChange Faults.none Faults.none Faults.none Faults.none
        (.parsed saveMap.toJson) freshOptionsPage = some (.imported saveMap.keys.length, p1) ∧
      (load Faults.none p1.store).1 = .ok saveMap ∧ p1.selectedLanguagePair = some "en-de") :=
  import_success .chromeLocal saveMap "en-de"
    [("translations", saveMap.toJson), ("languagePair", .string "en-de")] freshOptionsPage
    (by decide) (by decide) (by decide) rfl rfl (fun h => by cases h) rfl rfl

/-- What the import handler rejects: a parsed value that is not a JSON object (a number, a
string, a boolean, `null`, an array), or an object without any key (no member at all, or a
member `translations` that is an empty object or an empty array), is rejected with an error, and
the state is unchanged: the persisted dictionary and the stored language pair in particular. -/
theorem import_rejects_malformed (pfSave pfInfo pfLoad pfResave : Faults) (data : JsonValue)
    (p : OptionsPage)
    (hmalformed : (∀ members, data ≠ .object members) ∨
      ∃ members, data = .object members ∧
        (members = [] ∨ members.lookup "translations" = some (.object []) ∨
          members.lookup "translations" = some (.array []))) :
    ∃ error, Options.importOnChange pfSave pfInfo pfLoad pfResave (.parsed data) p
      = some (.failed error, p) := by
  rcases hmalformed with hnot | ⟨members, hdata, hempty⟩
  · cases data with
    | object members => exact absurd rfl (hnot members)
    | null =>
      exact ⟨.typeError,
        by simp [Options.importOnChange, JsonValue.typeofObject, JsonValue.isArray]⟩
    | bool b =>
      exact ⟨.thrown (.error "Ungültiges Format! Erwartet: JSON-Objekt."),
        by simp [Options.importOnChange, JsonValue.typeofObject]⟩
    | number n =>
      exact ⟨.thrown (.error "Ungültiges Format! Erwartet: JSON-Objekt."),
        by simp [Options.importOnChange, JsonValue.typeofObject]⟩
    | string s =>
      exact ⟨.thrown (.error "Ungültiges Format! Erwartet: JSON-Objekt."),
        by simp [Options.importOnChange, JsonValue.typeofObject]⟩
    | array items =>
      exact ⟨.thrown (.error "Ungültiges Format! Erwartet: JSON-Objekt."),
        by simp [Options.importOnChange, JsonValue.isArray]⟩
  · subst hdata
    refine ⟨.thrown (.error "No translations found!"), ?_⟩
    rcases hempty with h | h | h
    · subst h
      simp [Options.importOnChange, JsonValue.typeofObject, JsonValue.isArray,
        Options.importSelection, JsonValue.keyCount]
    · simp [Options.importOnChange, JsonValue.typeofObject, JsonValue.isArray,
        Options.importSelection, JsonValue.keyCount, h, JsonValue.truthy]
    · simp [Options.importOnChange, JsonValue.typeofObject, JsonValue.isArray,
        Options.importSelection, JsonValue.keyCount, h, JsonValue.truthy]

/-- Example: the number `5`, `null`, the empty object and `{"translations": {}}` are rejected
and leave the options page as it was. -/
theorem import_rejects_malformed_example :
    (∃ error, Options.importOnChange Faults.none Faults.none Faults.none Faults.none
      (.parsed (.number 5)) freshOptionsPage = some (.failed error, freshOptionsPage)) ∧
    (∃ error, Options.importOnChange Faults.none Faults.none Faults.none Faults.none
      (.parsed .null) freshOptionsPage = some (.failed error, freshOptionsPage)) ∧
    (∃ error, Options.importOnChange Faults.none Faults.none Faults.none Faults.none
      (.parsed (.object [])) freshOptionsPage = some (.failed error, freshOptionsPage)) ∧
    (∃ error, Options.importOnChange Faults.none Faults.none Faults.none Faults.none
      (.parsed (.object [("translations", .object [])])) freshOptionsPage
        = some (.failed error, freshOptionsPage)) :=
  ⟨import_rejects_malformed _ _ _ _ (.number 5) freshOptionsPage (Or.inl (by simp)),
    import_rejects_malformed _ _ _ _ .null freshOptionsPage (Or.inl (by simp)),
    import_rejects_malformed _ _ _ _ (.object []) freshOptionsPage
      (Or.inr ⟨[], rfl, Or.inl rfl⟩),
    import_rejects_malformed _ _ _ _ (.object [("translations", .object [])]) freshOptionsPage
      (Or.inr ⟨_, rfl, Or.inr (Or.inl rfl)⟩)⟩

/-- Both loaders return the map for the wrapped asset, and for the bare asset when the map has
no key `translations` with a non-empty value. -/
theorem loadDefaultTranslations_shapes (m : TranslationMap) (p : OptionsPage) :
    loadDefaultTranslations (.response true (some (.object [("translations", m.toJson)])))
      = m.toJson ∧
    (Options.loadDefaultTranslations
      (.response true (some (.object [("translations", m.toJson)]))) p).1 = m.toJson ∧
    ((m.get? "translations" = none ∨ m.get? "translations" = some "") →
      loadDefaultTranslations (.response true (some m.toJson)) = m.toJson ∧
      (Options.loadDefaultTranslations (.response true (some m.toJson)) p).1 = m.toJson) := by
  refine ⟨?_, ?_, ?_⟩
  · simp [loadDefaultTranslations, TranslationMap.toJson, JsonValue.truthy]
  · simp [Options.loadDefaultTranslations, memberOr, TranslationMap.toJson, JsonValue.truthy]
  · intro h
    have hjson : m.toJson = .object (m.entries.map fun kv => (kv.1, JsonValue.string kv.2)) := rfl
    rw [hjson]
    simp only [loadDefaultTranslations, Options.loadDefaultTranslations, memberOr, lookup_toJson]
    have hget : m.entries.lookup "translations" = m.get? "translations" := rfl
    rw [hget]
    rcases h with h | h <;> simp [h, JsonValue.truthy]

/-- C13, evaluated on the code: for the bare asset
`{"translations": "Übersetzungen", "OK": "In Ordnung"}`, a map of strings, both loaders return
the string `"Übersetzungen"`, not the map, and the options page keeps that string as its
default dictionary. -/
theorem loadDefaultTranslations_bare_translations_key :
    loadDefaultTranslations (.response true (some translationsKeyMap.toJson))
      = .string "Übersetzungen" ∧
    (Options.loadDefaultTranslations (.response true (some translationsKeyMap.toJson))
      freshOptionsPage).1 = .string "Übersetzungen" ∧
    (Options.loadDefaultTranslations (.response true (some translationsKeyMap.toJson))
      freshOptionsPage).2.defaultTranslations = .string "Übersetzungen" ∧
    loadDefaultTranslations (.response true (some translationsKeyMap.toJson))
      ≠ translationsKeyMap.toJson := by
  refine ⟨rfl, rfl, rfl, ?_⟩
  intro h
  cases h

/-! ## The localization engine: the flag, failures of the reload and of the bootstrap -/

/-- Without an exception the pass with `try`, `catch` and `finally` is `translateDocument`. -/
theorem translateDocumentWithFault_none (e : Engine) :
    translateDocumentWithFault none e = translateDocument e := by
  unfold translateDocumentWithFault translateDocument translateDocumentTry
  by_cases hbusy : e.isTranslating = true
  · simp [hbusy]
  · rcases hpass : translateNodes e.translations e.processedNodes e.body with ⟨count, body1, P1⟩
    simp [hbusy, hpass]

theorem translateDocumentWithFault_idle (fault : Option Nat) (e : Engine)
    (hidle : e.isTranslating = false) :
    (translateDocumentWithFault fault e).2.isTranslating = false := by
  unfold translateDocumentWithFault translateDocumentTry
  cases fault with
  | none =>
    rcases hpass : translateNodes e.translations e.processedNodes e.body with ⟨count, body1, P1⟩
    simp [hidle, hpass]
  | some k =>
    rcases hpass : translateNodes e.translations e.processedNodes (e.body.take k)
      with ⟨count, body1, P1⟩
    simp [hidle, hpass]

theorem translateDocument_frame (e : Engine) :
    (translateDocument e).2.isTranslating = (e.isTranslating && true) ∧
    (translateDocument e).2.started = e.started ∧
    (translateDocument e).2.translations = e.translations ∧
    (translateDocument e).2.store = e.store := by
  unfold translateDocument
  by_cases hbusy : e.isTranslating = true
  · simp [hbusy]
  · rcases hpass : translateNodes e.translations e.processedNodes e.body with ⟨count, body1, P1⟩
    simp [hbusy, hpass]

theorem startTranslation_frame (e : Engine) :
    (startTranslation e).isTranslating = e.isTranslating ∧
    (startTranslation e).started = e.started + 1 ∧
    (startTranslation e).translations = e.translations := by
  have h := translateDocument_frame { e with started := e.started + 1 }
  simp only [Bool.and_true] at h
  exact ⟨h.1, h.2.1, h.2.2.1⟩

theorem initializeTranslations_frame (asset : FetchOutcome) (pfLoad pfSave pfInfo : Faults)
    (e : Engine) :
    (initializeTranslations asset pfLoad pfSave pfInfo e).isTranslating = e.isTranslating ∧
    (initializeTranslations asset pfLoad pfSave pfInfo e).started = e.started + 1 := by
  unfold initializeTranslations
  simp only
  split
  · exact ⟨(startTranslation_frame _).1, (startTranslation_frame _).2.1⟩
  · split
    · split
      · exact ⟨(startTranslation_frame _).1, (startTranslation_frame _).2.1⟩
      · split <;> exact ⟨(startTranslation_frame _).1, (startTranslation_frame _).2.1⟩
    · split <;> exact ⟨(startTranslation_frame _).1, (startTranslation_frame _).2.1⟩

theorem onChanged_idle (pf : Faults) (changes : List String) (areaName : String) (e : Engine)
    (hidle : e.isTranslating = false) :
    (onChanged pf changes areaName e).isTranslating = false := by
  unfold onChanged
  split
  · simp only
    split
    · exact hidle
    · rw [(translateDocument_frame _).1]
      simp [hidle]
  · exact hidle

/-- C14. The non-reentrancy flag is always released: a call of `translateDocument` that starts
with `isTranslating = false` ends with `isTranslating = false`, whether the traversal completes
or throws at any position, and it returns to its caller even when the `try` block throws; a call
that starts with `isTranslating = true` returns at once, changing nothing. Hence every callback
(observer, timer, storage listener, bootstrap) that starts with the flag released ends with the
flag released. -/
theorem translateDocument_releases_flag (fault : Option Nat) (e : Engine) :
    (e.isTranslating = false → (translateDocumentWithFault fault e).2.isTranslating = false) ∧
    (e.isTranslating = false → ∀ k,
      (translateDocumentTry (some k) { e with isTranslating := true }).1 = .error () ∧
      (translateDocumentWithFault (some k) e).2.isTranslating = false) ∧
    (e.isTranslating = true → translateDocumentWithFault fault e = (0, e)) ∧
    (e.isTranslating = false →
      ∀ (mutations : List MutationRecord) (pf pfLoad pfSave pfInfo : Faults)
        (changes : List String) (areaName : String) (asset : FetchOutcome),
        (onMutations fault mutations e).isTranslating = false ∧
        (onInterval fault e).isTranslating = false ∧
        (onChanged pf changes areaName e).isTranslating = false ∧
        (initializeTranslations asset pfLoad pfSave pfInfo e).isTranslating = false) := by
  refine ⟨translateDocumentWithFault_idle fault e, ?_, ?_, ?_⟩
  · intro hidle k
    refine ⟨?_, translateDocumentWithFault_idle (some k) e hidle⟩
    unfold translateDocumentTry
    rcases hpass : translateNodes e.translations e.processedNodes (e.body.take k)
      with ⟨count, body1, P1⟩
    simp [hpass]
  · intro hbusy
    simp [translateDocumentWithFault, hbusy]
  · intro hidle mutations pf pfLoad pfSave pfInfo changes areaName asset
    refine ⟨?_, ?_, onChanged_idle pf changes areaName e hidle, ?_⟩
    · unfold onMutations
      split
      · exact translateDocumentWithFault_idle fault e hidle
      · exact hidle
    · unfold onInterval
      split
      · exact translateDocumentWithFault_idle fault e hidle
      · exact hidle
    · rw [(initializeTranslations_frame asset pfLoad pfSave pfInfo e).1]
      exact hidle

/-- Witness of C14: on the page of `steadyEngine` a pass that throws at the second text node
ends with the flag released, and a call made while a pass is in progress changes nothing. -/
theorem translateDocument_releases_flag_witness :
    (translateDocumentWithFault (some 1) steadyEngine).2.isTranslating = false ∧
    translateDocumentWithFault (some 1) { steadyEngine with isTranslating := true }
      = (0, { steadyEngine with isTranslating := true }) :=
  ⟨(translateDocument_releases_flag (some 1) steadyEngine).1 rfl,
    (translateDocument_releases_flag (some 1) { steadyEngine with isTranslating := true }).2.2.1
      rfl⟩

/-- C16. The call `getStorageInfo` is a correct read-only snapshot: with `b` the active backend
and no platform call failing it resolves with `type = b`, `count` the number of keys of the map
that `load` returns, `sizeBytes` the byte length of the serialization of that map, and `limit`
102400 for `sync`, 10485760 for `local`, 1073741824 for `indexeddb`; and, whether it resolves or
rejects, it changes neither the persisted data nor the in-memory selector. -/
theorem getStorageInfo_snapshot (b : Backend) (s : Store)
    (hactive : s.currentStorageType = b.id) :
    (load Faults.none s).1 = .ok (heldBy b s.chrome) ∧
    (∃ info s1, getStorageInfo Faults.none s = (.ok info, s1) ∧
      info.type = b.id ∧
      info.count = (heldBy b s.chrome).keys.length ∧
      info.sizeBytes = blobSize (jsonStringify (heldBy b s.chrome)) ∧
      (b = .chromeSync → info.limit = 102400) ∧
      (b = .chromeLocal → info.limit = 10485760) ∧
      (b = .indexedDB → info.limit = 1073741824)) ∧
    (∀ pf, (getStorageInfo pf s).2.chrome = s.chrome ∧
      (getStorageInfo pf s).2.currentStorageType = s.currentStorageType) := by
  have hs : s = { s with currentStorageType := b.id } := by
    cases s; simp_all
  have hload := load_eq_heldBy b s
  rw [← hs] at hload
  refine ⟨by rw [hload], ?_, ?_⟩
  · unfold getStorageInfo
    rw [hload]
    cases b <;> simp [Backend.id, hactive]
  · intro pf
    unfold getStorageInfo
    cases b
    · simp [load, loadFromChromeSync, hactive, Backend.id]
    · simp [load, loadFromChromeLocal, hactive, Backend.id]
    · cases hi : s.indexedDB_instance <;> cases ho : pf.openError <;>
        cases hr : pf.requestError <;>
        simp [load, loadFromIndexedDB, initIndexedDB, hactive, Backend.id, hi, ho, hr]

/-- Witness of C16: the snapshot of a `local` backend that holds 102408 bytes. -/
theorem getStorageInfo_snapshot_witness :
    ∃ info s1, getStorageInfo Faults.none overSyncQuotaStore = (.ok info, s1) ∧
      info.type = "local" ∧
      info.count = (heldBy .chromeLocal overSyncQuotaStore.chrome).keys.length ∧
      info.sizeBytes = blobSize (jsonStringify (heldBy .chromeLocal overSyncQuotaStore.chrome)) ∧
      (Backend.chromeLocal = .chromeSync → info.limit = 102400) ∧
      (Backend.chromeLocal = .chromeLocal → info.limit = 10485760) ∧
      (Backend.chromeLocal = .indexedDB → info.limit = 1073741824) :=
  (getStorageInfo_snapshot .chromeLocal overSyncQuotaStore rfl).2.1

/-- C17 as amended. Whatever fails during the bootstrap, the fetch of the default asset
included, `initializeTranslations` returns and `startTranslation` has been invoked once. When
`load`, `save` or `getStorageInfo` rejects (`init` has no failure path), the in-memory
dictionary afterwards is the default dictionary, the value of the variable
`defaultTranslations`. -/
theorem initializeTranslations_store_failure (asset : FetchOutcome)
    (pfLoad pfSave pfInfo : Faults) (e : Engine) :
    (initializeTranslations asset pfLoad pfSave pfInfo e).started = e.started + 1 ∧
    (((∃ err st, load pfLoad (init e.store).2 = (.error err, st)) ∨
      (∃ loaded st err st1, load pfLoad (init e.store).2 = (.ok loaded, st) ∧
        loaded.keys.length = 0 ∧ save pfSave e.defaultTranslations st = (.error err, st1)) ∨
      (∃ loaded st st1 err st2, load pfLoad (init e.store).2 = (.ok loaded, st) ∧
        loaded.keys.length = 0 ∧ save pfSave e.defaultTranslations st = (.ok (), st1) ∧
        getStorageInfo pfInfo st1 = (.error err, st2)) ∨
      (∃ loaded st err st1, load pfLoad (init e.store).2 = (.ok loaded, st) ∧
        loaded.keys.length ≠ 0 ∧ getStorageInfo pfInfo st = (.error err, st1))) →
      (initializeTranslations asset pfLoad pfSave pfInfo e).translations
        = e.defaultTranslations) := by
  refine ⟨(initializeTranslations_frame asset pfLoad pfSave pfInfo e).2, ?_⟩
  intro hfail
  rcases hfail with ⟨err, st, h1⟩ | ⟨loaded, st, err, st1, h1, h2, h3⟩ |
    ⟨loaded, st, st1, err, st2, h1, h2, h3, h4⟩ | ⟨loaded, st, err, st1, h1, h2, h3⟩
  · simp only [initializeTranslations, h1]
    rw [(startTranslation_frame _).2.2]
  · simp only [initializeTranslations, h1, h2, if_true, h3]
    rw [(startTranslation_frame _).2.2]
  · simp only [initializeTranslations, h1, h2, if_true, h3, h4]
    rw [(startTranslation_frame _).2.2]
  · simp only [initializeTranslations, h1, h2, if_false, h3]
    rw [(startTranslation_frame _).2.2]

/-- Witness of C17 as amended: the persisted selector is `indexeddb` and the database cannot be
opened, so `load` rejects. -/
theorem initializeTranslations_store_failure_witness :
    (initializeTranslations okAsset openErrorFaults Faults.none Faults.none
      steadyEngineIndexedDB).started = steadyEngineIndexedDB.started + 1 ∧
    (initializeTranslations okAsset openErrorFaults Faults.none Faults.none
      steadyEngineIndexedDB).translations = steadyEngineIndexedDB.defaultTranslations :=
  ⟨(initializeTranslations_store_failure okAsset openErrorFaults Faults.none Faults.none
      steadyEngineIndexedDB).1,
    (initializeTranslations_store_failure okAsset openErrorFaults Faults.none Faults.none
      steadyEngineIndexedDB).2 (Or.inl ⟨.idbError, _, rfl⟩)⟩

/-- Counterexample to C17 as stated: the fetch of the default asset fails, the `local` backend
holds `{"OK": "In Ordnung"}`, and after the bootstrap the in-memory dictionary is that map, not
the empty map. -/
theorem initializeTranslations_asset_failure_keeps_store :
    loadDefaultTranslations .networkError = .object [] ∧
    (initializeTranslations .networkError Faults.none Faults.none Faults.none
      storedEngine).translations = okMap ∧
    (initializeTranslations .networkError Faults.none Faults.none Faults.none
      storedEngine).translations ≠ TranslationMap.empty := by
  refine ⟨rfl, ?_, ?_⟩ <;> decide

/-- C18. Reload failure keeps the last known dictionary: when the notification lists the key
`customTranslations` or the key `storageType` and the `load` of the reload rejects (`init` has
no failure path), the in-memory dictionary, the processed set and every text node are as before
the notification, and the listener returns. -/
theorem onChanged_reload_failure (pf : Faults) (changes : List String) (areaName : String)
    (e : Engine)
    (hkeys : "customTranslations" ∈ changes ∨ "storageType" ∈ changes)
    (hfail : ∃ err st, load pf (init e.store).2 = (.error err, st)) :
    (onChanged pf changes areaName e).translations = e.translations ∧
    (onChanged pf changes areaName e).processedNodes = e.processedNodes ∧
    (onChanged pf changes areaName e).body = e.body ∧
    (onChanged pf changes areaName e).isTranslating = e.isTranslating := by
  obtain ⟨err, st, h⟩ := hfail
  simp [onChanged, hkeys, h]

/-- Witness of C18: the selector was switched to `indexeddb` and the database cannot be
opened. -/
theorem onChanged_reload_failure_witness :
    (onChanged openErrorFaults ["storageType"] "local" steadyEngineIndexedDB).translations
      = workItems ∧
    (onChanged openErrorFaults ["storageType"] "local" steadyEngineIndexedDB).processedNodes
      = [1] ∧
    (onChanged openErrorFaults ["storageType"] "local" steadyEngineIndexedDB).body
      = steadyEngineIndexedDB.body ∧
    (onChanged openErrorFaults ["storageType"] "local" steadyEngineIndexedDB).isTranslating
      = false :=
  onChanged_reload_failure openErrorFaults ["storageType"] "local" steadyEngineIndexedDB
    (by decide) ⟨.idbError, _, rfl⟩

/-! ## The settings page: clamping -/

/-- A text that `parseInt` reads as a number is clamped: after the `change` listener and
`saveSettings` the stored `updateInterval` lies in `[500, 10000]` and is the number entered when
that is in the range; likewise `maxCache` lies in `[100, 10000]`. -/
theorem entered_number_clamped (text : String) (p : SettingsPage) (n : Int)
    (hnumber : parseInt text = some n) :
    (∃ v, (SettingsPage.saveSettings (SettingsPage.enterUpdateInterval text p)).1.updateInterval
        = some v ∧ 500 ≤ v ∧ v ≤ 10000 ∧ (500 ≤ n → n ≤ 10000 → v = n)) ∧
    (∃ v, (SettingsPage.saveSettings (SettingsPage.enterMaxCache text p)).1.maxCache
        = some v ∧ 100 ≤ v ∧ v ≤ 10000 ∧ (100 ≤ n → n ≤ 10000 → v = n)) := by
  have h500 : parseInt "500" = some 500 := by decide
  have h100 : parseInt "100" = some 100 := by decide
  have h10000 : parseInt "10000" = some 10000 := by decide
  constructor
  · by_cases hlow : n < 500
    · refine ⟨500, ?_, by omega, by omega, by omega⟩
      simp [SettingsPage.saveSettings, SettingsPage.enterUpdateInterval,
        SettingsPage.updateIntervalChange, SettingsPage.numberLt, hnumber, hlow, h500]
    · by_cases hhigh : n > 10000
      · refine ⟨10000, ?_, by omega, by omega, by omega⟩
        simp [SettingsPage.saveSettings, SettingsPage.enterUpdateInterval,
          SettingsPage.updateIntervalChange, SettingsPage.numberLt, SettingsPage.numberGt,
          hnumber, hlow, hhigh, h10000]
      · refine ⟨n, ?_, by omega, by omega, fun _ _ => rfl⟩
        simp [SettingsPage.saveSettings, SettingsPage.enterUpdateInterval,
          SettingsPage.updateIntervalChange, SettingsPage.numberLt, SettingsPage.numberGt,
          hnumber, hlow, hhigh]
  · by_cases hlow : n < 100
    · refine ⟨100, ?_, by omega, by omega, by omega⟩
      simp [SettingsPage.saveSettings, SettingsPage.enterMaxCache,
        SettingsPage.maxCacheChange, SettingsPage.numberLt, hnumber, hlow, h100]
    · by_cases hhigh : n > 10000
      · refine ⟨10000, ?_, by omega, by omega, by omega⟩
        simp [SettingsPage.saveSettings, SettingsPage.enterMaxCache,
          SettingsPage.maxCacheChange, SettingsPage.numberLt, SettingsPage.numberGt,
          hnumber, hlow, hhigh, h10000]
      · refine ⟨n, ?_, by omega, by omega, fun _ _ => rfl⟩
        simp [SettingsPage.saveSettings, SettingsPage.enterMaxCache,
          SettingsPage.maxCacheChange, SettingsPage.numberLt, SettingsPage.numberGt,
          hnumber, hlow, hhigh]

/-- C15, evaluated on the code: when the user clears the field `update-interval` (or types a
text that is not a number) the `change` listener leaves the field as it is, both comparisons with
`NaN` being false, and `saveSettings` keeps and stores `NaN` as `updateInterval`: no number in
`[500, 10000]`. The same happens to `maxCache`. Entered numbers are clamped: `120` becomes `500`
and `600` stays. -/
theorem cleared_field_stores_NaN :
    parseInt "" = none ∧
    (SettingsPage.enterUpdateInterval "" freshSettingsPage).form.updateInterval = "" ∧
    (SettingsPage.saveSettings
      (SettingsPage.enterUpdateInterval "" freshSettingsPage)).1.updateInterval = none ∧
    ((SettingsPage.saveSettings
      (SettingsPage.enterUpdateInterval "" freshSettingsPage)).2.extensionSettings.map
        fun stored => stored.updateInterval) = some none ∧
    (SettingsPage.saveSettings
      (SettingsPage.enterUpdateInterval "abc" freshSettingsPage)).1.updateInterval = none ∧
    (SettingsPage.saveSettings
      (SettingsPage.enterMaxCache "" freshSettingsPage)).1.maxCache = none ∧
    (SettingsPage.saveSettings
      (SettingsPage.enterUpdateInterval "120" freshSettingsPage)).1.updateInterval = some 500 ∧
    (SettingsPage.saveSettings
      (SettingsPage.enterUpdateInterval "600" freshSettingsPage)).1.updateInterval = some 600 := by
  decide

/-! ## The localization engine: frame of a pass -/

theorem translateTextNode_id (d : TranslationMap) (P : List Nat) (node : TextNode) :
    (translateTextNode d P node).2.1.id = node.id := by
  unfold translateTextNode
  by_cases hP : node.id ∈ P
  · simp [hP]
  · cases hkey : d.get? (jsTrim node.textContent) <;> simp [hP, hkey]

theorem translateTextNode_true_iff (d : TranslationMap) (P : List Nat) (node : TextNode) :
    (translateTextNode d P node).1 = true ↔
      node.id ∉ P ∧ d.hasOwnProperty (jsTrim node.textContent) = true := by
  unfold translateTextNode TranslationMap.hasOwnProperty TranslationMap.get?
  by_cases hP : node.id ∈ P
  · simp [hP]
  · cases hkey : List.lookup (jsTrim node.textContent) d.entries <;> simp [hP, hkey]

theorem translateTextNode_mem (d : TranslationMap) (P : List Nat) (node : TextNode) (i : Nat) :
    i ∈ (translateTextNode d P node).2.2 ↔
      i ∈ P ∨ (i = node.id ∧ (translateTextNode d P node).1 = true) := by
  unfold translateTextNode
  by_cases hP : node.id ∈ P
  · simp [hP]
  · cases hkey : d.get? (jsTrim node.textContent) <;> simp [hP, hkey, or_comm]

/-- What `translateTextNode` returns and does to the node depends on the processed set only
through the membership of the node itself. -/
theorem translateTextNode_congr (d : TranslationMap) (P Q : List Nat) (node : TextNode)
    (h : node.id ∈ P ↔ node.id ∈ Q) :
    (translateTextNode d Q node).1 = (translateTextNode d P node).1 ∧
    (translateTextNode d Q node).2.1 = (translateTextNode d P node).2.1 := by
  unfold translateTextNode
  by_cases hP : node.id ∈ P
  · have hQ := h.mp hP
    simp [hP, hQ]
  · have hQ : node.id ∉ Q := fun hq => hP (h.mpr hq)
    cases hkey : d.get? (jsTrim node.textContent) <;> simp [hP, hQ, hkey]

/-- On nodes with distinct identities the loop acts on each node by itself: a node is replaced by
what `translateTextNode` makes of it under the processed set the pass started with, and the
final processed set is the initial one plus the nodes translated. -/
theorem translateNodes_pointwise (d : TranslationMap) (nodes : List TextNode) :
    ∀ P, (nodes.map TextNode.id).Nodup →
      (translateNodes d P nodes).2.1 =
        nodes.map (fun node =>
          if acceptNode node = true then (translateTextNode d P node).2.1 else node) ∧
      ∀ i, i ∈ (translateNodes d P nodes).2.2 ↔
        i ∈ P ∨ ∃ node ∈ nodes, node.id = i ∧ acceptNode node = true ∧
          (translateTextNode d P node).1 = true := by
  induction nodes with
  | nil => intro P _; simp [translateNodes]
  | cons node rest ih =>
    intro P hnd
    simp only [List.map_cons, List.nodup_cons] at hnd
    obtain ⟨hfresh, hrest⟩ := hnd
    by_cases hacc : acceptNode node = true
    · have hmem := translateTextNode_mem d P node
      rcases hstep : translateTextNode d P node with ⟨translated, node1, P1⟩
      rw [hstep] at hmem
      simp only at hmem
      obtain ⟨hbody, hset⟩ := ih P1 hrest
      have hsame : ∀ r ∈ rest, (r.id ∈ P ↔ r.id ∈ P1) := by
        intro r hr
        rw [hmem]
        constructor
        · exact fun h => Or.inl h
        · rintro (h | ⟨h, _⟩)
          · exact h
          · exact absurd (List.mem_map.mpr ⟨r, hr, h⟩) hfresh
      rcases hloop : translateNodes d P1 rest with ⟨count, rest1, P2⟩
      rw [hloop] at hbody hset
      simp only at hbody hset
      simp only [translateNodes, hacc, if_true, hstep, hloop, List.map_cons]
      refine ⟨?_, ?_⟩
      · rw [hbody]
        congr 1
        apply List.map_congr_left
        intro r hr
        rw [(translateTextNode_congr d P P1 r (hsame r hr)).2]
      · intro i
        rw [hset, hmem]
        constructor
        · rintro ((h | ⟨h, ht⟩) | ⟨r, hr, hid, hra, hrt⟩)
          · exact Or.inl h
          · exact Or.inr ⟨node, List.mem_cons_self _ _, h.symm, hacc, by rw [hstep]; exact ht⟩
          · refine Or.inr ⟨r, List.mem_cons_of_mem _ hr, hid, hra, ?_⟩
            rw [← (translateTextNode_congr d P P1 r (hsame r hr)).1]
            exact hrt
        · rintro (h | ⟨r, hr, hid, hra, hrt⟩)
          · exact Or.inl (Or.inl h)
          · rcases List.mem_cons.mp hr with heq | hr1
            · subst heq
              rw [hstep] at hrt
              exact Or.inl (Or.inr ⟨hid.symm, hrt⟩)
            · refine Or.inr ⟨r, hr1, hid, hra, ?_⟩
              rw [(translateTextNode_congr d P P1 r (hsame r hr1)).1]
              exact hrt
    · obtain ⟨hbody, hset⟩ := ih P hrest
      rcases hloop : translateNodes d P rest with ⟨count, rest1, P2⟩
      rw [hloop] at hbody hset
      simp only at hbody hset
      have hrej : acceptNode node = false := by simpa using hacc
      simp only [translateNodes, hrej, Bool.false_eq_true, if_false, hloop, List.map_cons]
      refine ⟨by rw [hbody], ?_⟩
      intro i
      rw [hset]
      constructor
      · rintro (h | ⟨r, hr, hid, hra, hrt⟩)
        · exact Or.inl h
        · exact Or.inr ⟨r, List.mem_cons_of_mem _ hr, hid, hra, hrt⟩
      · rintro (h | ⟨r, hr, hid, hra, hrt⟩)
        · exact Or.inl h
        · rcases List.mem_cons.mp hr with heq | hr1
          · subst heq
            exact absurd hra hacc
          · exact Or.inr ⟨r, hr1, hid, hra, hrt⟩

/-- A node that meets one of the conditions of the frame is returned as it is and is not
translated. -/
theorem translateTextNode_frame (d : TranslationMap) (P : List Nat) (node : TextNode)
    (hframe : node.parentTagName = none ∨ node.parentTagName = some "SCRIPT" ∨
      node.parentTagName = some "STYLE" ∨ jsTrim node.textContent = "" ∨ node.id ∈ P ∨
      d.hasOwnProperty (jsTrim node.textContent) = false) :
    (if acceptNode node = true then (translateTextNode d P node).2.1 else node) = node ∧
    ¬ (acceptNode node = true ∧ (translateTextNode d P node).1 = true) := by
  rcases hframe with h | h | h | h | h | h
  · simp [acceptNode, h]
  · simp [acceptNode, h]
  · simp [acceptNode, h]
  · have hrej : acceptNode node = false := by
      unfold acceptNode
      cases node.parentTagName <;> simp [h]
    simp [hrej]
  · simp [translateTextNode, h]
  · have hnone : d.get? (jsTrim node.textContent) = none := by
      simpa [TranslationMap.hasOwnProperty, TranslationMap.get?] using h
    by_cases hP : node.id ∈ P <;> simp [translateTextNode, hP, hnone]

/-- C19. Frame of a pass: on a page whose text nodes have distinct identities,
`translateDocument` leaves the text and the processed mark of a text node unchanged whenever
the node has no parent element, its parent is a `SCRIPT` or `STYLE` element, its trimmed text is
empty, it is already in the processed set, or its trimmed text is not a key of the dictionary.
After the pass the processed set is the one before plus the nodes translated in this pass (the
accepted, unprocessed nodes whose trimmed text is a key), and the dictionary is unchanged. -/
theorem translateDocument_frame_of_pass (e : Engine)
    (hids : (e.body.map TextNode.id).Nodup) :
    (∀ (i : Nat) (node : TextNode), e.body[i]? = some node →
      (node.parentTagName = none ∨ node.parentTagName = some "SCRIPT" ∨
        node.parentTagName = some "STYLE" ∨ jsTrim node.textContent = "" ∨
        node.id ∈ e.processedNodes ∨
        e.translations.hasOwnProperty (jsTrim node.textContent) = false) →
      (translateDocument e).2.body[i]? = some node ∧
      (node.id ∈ (translateDocument e).2.processedNodes ↔ node.id ∈ e.processedNodes)) ∧
    (∀ id : Nat, id ∈ (translateDocument e).2.processedNodes ↔
      id ∈ e.processedNodes ∨
        ∃ node ∈ e.body, node.id = id ∧ e.isTranslating = false ∧ acceptNode node = true ∧
          node.id ∉ e.processedNodes ∧
          e.translations.hasOwnProperty (jsTrim node.textContent) = true) ∧
    (translateDocument e).2.translations = e.translations := by
  refine ⟨?_, ?_, (translateDocument_frame e).2.2.1⟩
  · intro i node hnode hframe
    by_cases hbusy : e.isTranslating = true
    · have hres : (translateDocument e).2 = e := by simp [translateDocument, hbusy]
      rw [hres]
      exact ⟨hnode, Iff.rfl⟩
    · obtain ⟨hbody, hset⟩ := translateNodes_pointwise e.translations e.body e.processedNodes hids
      obtain ⟨hsame, hnot⟩ := translateTextNode_frame e.translations e.processedNodes node hframe
      have hb : (translateDocument e).2.body
          = (translateNodes e.translations e.processedNodes e.body).2.1 := by
        simp [translateDocument, hbusy]
      have hp : (translateDocument e).2.processedNodes
          = (translateNodes e.translations e.processedNodes e.body).2.2 := by
        simp [translateDocument, hbusy]
      rw [hb, hp]
      refine ⟨?_, ?_⟩
      · rw [hbody, List.getElem?_map, hnode, Option.map_some', hsame]
      · rw [hset]
        constructor
        · rintro (h | ⟨other, hother, hid, hacc, htr⟩)
          · exact h
          · have heq : other = node :=
              List.inj_on_of_nodup_map hids hother (List.getElem?_mem hnode) hid
            subst heq
            exact absurd ⟨hacc, htr⟩ hnot
        · exact fun h => Or.inl h
  · intro id
    by_cases hbusy : e.isTranslating = true
    · have hres : (translateDocument e).2 = e := by simp [translateDocument, hbusy]
      rw [hres]
      constructor
      · exact fun h => Or.inl h
      · rintro (h | ⟨node, _, _, hidle, _⟩)
        · exact h
        · rw [hbusy] at hidle
          exact absurd hidle (by decide)
    · obtain ⟨_, hset⟩ := translateNodes_pointwise e.translations e.body e.processedNodes hids
      have hp : (translateDocument e).2.processedNodes
          = (translateNodes e.translations e.processedNodes e.body).2.2 := by
        simp [translateDocument, hbusy]
      rw [hp, hset]
      have hidle : e.isTranslating = false := by simpa using hbusy
      constructor
      · rintro (h | ⟨node, hnode, hid, hacc, htr⟩)
        · exact Or.inl h
        · have hcond := (translateTextNode_true_iff _ _ _).mp htr
          exact Or.inr ⟨node, hnode, hid, hidle, hacc, hcond.1, hcond.2⟩
      · rintro (h | ⟨node, hnode, hid, _, hacc, hnew, hkey⟩)
        · exact Or.inl h
        · exact Or.inr ⟨node, hnode, hid, hacc,
            (translateTextNode_true_iff _ _ _).mpr ⟨hnew, hkey⟩⟩

/-- Witness of C19: on the page of `mixedEngine` the node in a `SCRIPT` element (position 2)
and the node that only contains the key (position 6) are left as they are and unmarked. -/
theorem translateDocument_frame_of_pass_witness :
    ((translateDocument mixedEngine).2.body[2]? = some ⟨3, some "SCRIPT", "Work Items"⟩ ∧
      (3 ∈ (translateDocument mixedEngine).2.processedNodes ↔ 3 ∈ mixedEngine.processedNodes)) ∧
    ((translateDocument mixedEngine).2.body[6]? = some ⟨7, some "P", "Work Items are great"⟩ ∧
      (7 ∈ (translateDocument mixedEngine).2.processedNodes ↔ 7 ∈ mixedEngine.processedNodes)) :=
  ⟨(translateDocument_frame_of_pass mixedEngine (by decide)).1 2
      ⟨3, some "SCRIPT", "Work Items"⟩ rfl (by decide),
    (translateDocument_frame_of_pass mixedEngine (by decide)).1 6
      ⟨7, some "P", "Work Items are great"⟩ rfl (by decide)⟩

/-! ## White space around the trimmed text -/

theorem leadingSpaces_append_drop (l : List Char) :
    leadingSpaces l ++ dropLeadingSpaces l = l := by
  induction l with
  | nil => rfl
  | cons c cs ih =>
    by_cases hc : isJsSpace c = true
    · simp [leadingSpaces, dropLeadingSpaces, hc, ih]
    · simp [leadingSpaces, dropLeadingSpaces, hc]

theorem dropLeadingSpaces_eq_nil (l : List Char) :
    dropLeadingSpaces l = [] ↔ ∀ c ∈ l, isJsSpace c = true := by
  induction l with
  | nil => simp [dropLeadingSpaces]
  | cons c cs ih =>
    by_cases hc : isJsSpace c = true
    · simp [dropLeadingSpaces, hc, ih]
    · simp [dropLeadingSpaces, hc]

theorem leadingSpaces_of_all (l : List Char) (h : ∀ c ∈ l, isJsSpace c = true) :
    leadingSpaces l = l := by
  induction l with
  | nil => rfl
  | cons c cs ih =>
    have hc : isJsSpace c = true := h c (List.mem_cons_self _ _)
    simp [leadingSpaces, hc, ih (fun x hx => h x (List.mem_cons_of_mem _ hx))]

theorem leadingSpaces_append (l r : List Char) (h : ∃ c ∈ l, isJsSpace c = false) :
    leadingSpaces (l ++ r) = leadingSpaces l := by
  induction l with
  | nil => simp at h
  | cons c cs ih =>
    by_cases hc : isJsSpace c = true
    · obtain ⟨x, hx, hxs⟩ := h
      rcases List.mem_cons.mp hx with heq | hmem
      · subst heq
        rw [hc] at hxs
        exact absurd hxs (by decide)
      · simp [leadingSpaces, hc, ih ⟨x, hmem, hxs⟩]
    · simp [leadingSpaces, hc]

theorem dropLeadingSpaces_head (l : List Char) (c : Char) (cs : List Char)
    (h : dropLeadingSpaces l = c :: cs) : isJsSpace c = false := by
  induction l with
  | nil => simp [dropLeadingSpaces] at h
  | cons x xs ih =>
    by_cases hx : isJsSpace x = true
    · simp only [dropLeadingSpaces, hx, if_true] at h
      exact ih h
    · simp only [dropLeadingSpaces, hx] at h
      have hxc : x = c := (List.cons.inj h).1
      rw [← hxc]
      simpa using hx

/-- The characters of a text whose trimmed part is not empty are the leading white space, the
trimmed part and the trailing white space, in this order. -/
theorem trim_decomposition (l : List Char)
    (hcore : (dropLeadingSpaces (dropLeadingSpaces l).reverse).reverse ≠ []) :
    leadingSpaces l ++ ((dropLeadingSpaces (dropLeadingSpaces l).reverse).reverse ++
      (leadingSpaces l.reverse).reverse) = l := by
  cases hb : dropLeadingSpaces l with
  | nil => simp [hb, dropLeadingSpaces] at hcore
  | cons c cs =>
    have hc := dropLeadingSpaces_head l c cs hb
    have hl : l = leadingSpaces l ++ (c :: cs) := by
      conv_lhs => rw [← leadingSpaces_append_drop l, hb]
    have hrev : l.reverse = (c :: cs).reverse ++ (leadingSpaces l).reverse := by
      conv_lhs => rw [hl, List.reverse_append]
    have htrail : leadingSpaces l.reverse = leadingSpaces (c :: cs).reverse := by
      rw [hrev]
      exact leadingSpaces_append _ _ ⟨c, by simp, hc⟩
    have hsplit := leadingSpaces_append_drop (c :: cs).reverse
    have hb2 : (dropLeadingSpaces (c :: cs).reverse).reverse ++
        (leadingSpaces (c :: cs).reverse).reverse = c :: cs := by
      rw [← List.reverse_append, hsplit, List.reverse_reverse]
    rw [htrail, hb2]
    exact hl.symm

/-- C20. White-space decomposition is lossless: for every text whose trimmed part is not empty,
the match of `/^\s*/`, the trimmed part and the match of `/\s*$/` concatenate to the text, so
that under an entry whose value equals its key `translateTextNode` leaves the node exactly as it
was (and marks it). For a non-empty text of white space only the two matches are the whole text
each and the equation fails. -/
theorem whitespace_decomposition (s : String) :
    (jsTrim s ≠ "" →
      matchLeadingWhitespace s ++ jsTrim s ++ matchTrailingWhitespace s = s ∧
      ∀ (d : TranslationMap) (P : List Nat) (node : TextNode),
        node.textContent = s → node.id ∉ P → d.get? (jsTrim s) = some (jsTrim s) →
          translateTextNode d P node = (true, node, node.id :: P)) ∧
    (s ≠ "" → jsTrim s = "" →
      matchLeadingWhitespace s ++ jsTrim s ++ matchTrailingWhitespace s ≠ s) := by
  obtain ⟨l⟩ := s
  have happend : ∀ a b : List Char, String.mk a ++ String.mk b = String.mk (a ++ b) :=
    fun _ _ => rfl
  have hne : ∀ a : List Char, String.mk a = "" ↔ a = [] := by
    intro a
    constructor
    · intro h
      exact congrArg String.data h
    · intro h
      rw [h]
  constructor
  · intro hcore
    have hcore1 : (dropLeadingSpaces (dropLeadingSpaces l).reverse).reverse ≠ [] :=
      fun h => hcore ((hne _).mpr h)
    have hdec : matchLeadingWhitespace ⟨l⟩ ++ jsTrim ⟨l⟩ ++ matchTrailingWhitespace ⟨l⟩ = ⟨l⟩ := by
      simp only [matchLeadingWhitespace, jsTrim, matchTrailingWhitespace, happend]
      rw [List.append_assoc, trim_decomposition l hcore1]
    refine ⟨hdec, ?_⟩
    intro d P node htext hnew hkey
    obtain ⟨id, parent, text⟩ := node
    simp only at htext hnew
    subst htext
    simp [translateTextNode, hnew, hkey, hdec]
  · intro hs htrim
    have hl : l ≠ [] := fun h => hs ((hne l).mpr h)
    have htrim1 : (dropLeadingSpaces (dropLeadingSpaces l).reverse).reverse = [] :=
      (hne _).mp htrim
    have hall : ∀ c ∈ l, isJsSpace c = true := by
      apply (dropLeadingSpaces_eq_nil l).mp
      cases hb : dropLeadingSpaces l with
      | nil => rfl
      | cons c cs =>
        have hc := dropLeadingSpaces_head l c cs hb
        rw [hb] at htrim1
        have hnil : dropLeadingSpaces (c :: cs).reverse = [] := by
          simpa using htrim1
        have := (dropLeadingSpaces_eq_nil _).mp hnil c (by simp)
        rw [hc] at this
        exact absurd this (by decide)
    have hlead : leadingSpaces l = l := leadingSpaces_of_all l hall
    have htrail : leadingSpaces l.reverse = l.reverse :=
      leadingSpaces_of_all _ (fun c hc => hall c (List.mem_reverse.mp hc))
    simp only [matchLeadingWhitespace, jsTrim, matchTrailingWhitespace, happend, htrim1, hlead,
      htrail, List.reverse_reverse, List.append_nil]
    intro h
    have hlen := congrArg (fun t : String => t.data.length) h
    simp only [List.length_append] at hlen
    have hpos : 0 < l.length := List.length_pos.mpr hl
    omega

/-- Witness of C20: the text `"  Work Items \n"`, and the text `" \n "` of white space only. -/
theorem whitespace_decomposition_witness :
    (matchLeadingWhitespace "  Work Items \n" ++ jsTrim "  Work Items \n" ++
        matchTrailingWhitespace "  Work Items \n" = "  Work Items \n" ∧
      ∀ (d : TranslationMap) (P : List Nat) (node : TextNode),
        node.textContent = "  Work Items \n" → node.id ∉ P →
          d.get? (jsTrim "  Work Items \n") = some (jsTrim "  Work Items \n") →
          translateTextNode d P node = (true, node, node.id :: P)) ∧
    matchLeadingWhitespace " \n " ++ jsTrim " \n " ++ matchTrailingWhitespace " \n " ≠ " \n " :=
  ⟨(whitespace_decomposition "  Work Items \n").1 (by decide),
    (whitespace_decomposition " \n ").2 (by decide) (by decide)⟩

/-! ## The selector over sequences of calls -/

theorem load_selectors (pf : Faults) (s : Store) :
    (load pf s).2.currentStorageType = s.currentStorageType ∧ (load pf s).2.chrome = s.chrome := by
  unfold load
  by_cases h1 : s.currentStorageType = "sync"
  · simp [h1, loadFromChromeSync]
  · by_cases h2 : s.currentStorageType = "local"
    · simp [h2, loadFromChromeLocal]
    · by_cases h3 : s.currentStorageType = "indexeddb"
      · cases hi : s.indexedDB_instance <;> cases ho : pf.openError <;>
          cases hr : pf.requestError <;>
          simp [h3, loadFromIndexedDB, initIndexedDB, hi, ho, hr]
      · simp [h1, h2, h3]

theorem save_selectors (pf : Faults) (translations : TranslationMap) (s : Store) :
    (save pf translations s).2.currentStorageType = s.currentStorageType ∧
    (save pf translations s).2.chrome.storageType = s.chrome.storageType := by
  unfold save
  by_cases h1 : s.currentStorageType = "sync"
  · by_cases hz : blobSize (jsonStringify translations) > 100 * 1024 <;>
      cases hf : pf.syncSetLastError <;> simp [h1, saveToChromeSync, hz, hf]
  · by_cases h2 : s.currentStorageType = "local"
    · by_cases hz : blobSize (jsonStringify translations) > 10 * 1024 * 1024 <;>
        cases hf : pf.localSetLastError <;> simp [h2, saveToChromeLocal, hz, hf]
    · by_cases h3 : s.currentStorageType = "indexeddb"
      · cases hi : s.indexedDB_instance <;> cases ho : pf.openError <;>
          cases ht : pf.transactionError <;>
          simp [h3, saveToIndexedDB, initIndexedDB, hi, ho, ht]
      · simp [h1, h2, h3]

theorem getStorageInfo_selectors (pf : Faults) (s : Store) :
    (getStorageInfo pf s).2.currentStorageType = s.currentStorageType ∧
    (getStorageInfo pf s).2.chrome = s.chrome := by
  have h := load_selectors pf s
  unfold getStorageInfo
  rcases hload : load pf s with ⟨result, s1⟩
  rw [hload] at h
  cases result with
  | error e => exact h
  | ok translations =>
    simp only
    split
    · exact h
    · split <;> exact h

theorem setStorageType_selectors (type : String) (s : Store) (hs : validSelectors s) :
    validSelectors (setStorageType type s).2 := by
  unfold setStorageType
  by_cases hv : type ∈ ["sync", "local", "indexeddb"]
  · have hvalid : validType type := by simpa [validType] using hv
    simp only [hv, not_true_eq_false, if_false]
    exact ⟨hvalid, Or.inr ⟨type, rfl, hvalid⟩⟩
  · simp only [hv, not_false_eq_true, if_true]
    exact hs

/-- A call of `migrate` between two backend identifiers leaves valid selectors valid, whether
it resolves or rejects. -/
theorem migrate_selectors (pfLoad pfSave : Faults) (fromType toType : String) (s : Store)
    (hs : validSelectors s) (hfrom : validType fromType) (hto : validType toType) :
    validSelectors (migrate pfLoad pfSave fromType toType s).2 := by
  have hl := load_selectors pfLoad { s with currentStorageType := fromType }
  unfold migrate
  simp only
  rcases hload : load pfLoad { s with currentStorageType := fromType } with ⟨result, s2⟩
  rw [hload] at hl
  simp only at hl
  cases result with
  | error e =>
    simp only
    exact ⟨by rw [hl.1]; exact hfrom, by rw [hl.2]; exact hs.2⟩
  | ok translations =>
    simp only
    have hsv := save_selectors pfSave translations { s2 with currentStorageType := toType }
    rcases hsave : save pfSave translations { s2 with currentStorageType := toType }
      with ⟨result2, s4⟩
    rw [hsave] at hsv
    simp only at hsv
    have hs4 : validSelectors s4 := ⟨by rw [hsv.1]; exact hto, by rw [hsv.2, hl.2]; exact hs.2⟩
    cases result2 with
    | error e => exact hs4
    | ok u =>
      simp only
      have hset := setStorageType_selectors toType s4 hs4
      rcases hst : setStorageType toType s4 with ⟨result3, s5⟩
      rw [hst] at hset
      cases result3 <;> exact hset

theorem run_selectors (call : StoreCall) (s : Store) (hs : validSelectors s)
    (hcall : call.migratesBetweenValidTypes) : validSelectors (call.run s) := by
  cases call with
  | init =>
    simp only [StoreCall.run, init]
    refine ⟨?_, hs.2⟩
    rcases hs.2 with hnone | ⟨type, hsome, hvalid⟩
    · simp [hnone, orElse, validType]
    · have hne : type ≠ "" := by
        rcases hvalid with h | h | h <;> rw [h] <;> decide
      simp [hsome, orElse, hne, hvalid]
  | setStorageType type => exact setStorageType_selectors type s hs
  | save pf translations =>
    have h := save_selectors pf translations s
    exact ⟨by simp only [StoreCall.run]; rw [h.1]; exact hs.1,
      by simp only [StoreCall.run]; rw [h.2]; exact hs.2⟩
  | load pf =>
    have h := load_selectors pf s
    exact ⟨by simp only [StoreCall.run]; rw [h.1]; exact hs.1,
      by simp only [StoreCall.run]; rw [h.2]; exact hs.2⟩
  | getStorageInfo pf =>
    have h := getStorageInfo_selectors pf s
    exact ⟨by simp only [StoreCall.run]; rw [h.1]; exact hs.1,
      by simp only [StoreCall.run]; rw [h.2]; exact hs.2⟩
  | migrate pfLoad pfSave fromType toType =>
    exact migrate_selectors pfLoad pfSave fromType toType s hs hcall.1 hcall.2

/-- The invariant that does hold: over any sequence of calls in which every `migrate` is between
two backend identifiers, valid selectors stay valid, whether the calls resolve or reject. -/
theorem runCalls_selectors (calls : List StoreCall) :
    ∀ s, validSelectors s → (∀ call ∈ calls, call.migratesBetweenValidTypes) →
      validSelectors (runCalls calls s) := by
  induction calls with
  | nil => intro s hs _; exact hs
  | cons call rest ih =>
    intro s hs hcalls
    simp only [runCalls, List.foldl_cons]
    exact ih (call.run s)
      (run_selectors call s hs (hcalls call (List.mem_cons_self _ _)))
      (fun c hc => hcalls c (List.mem_cons_of_mem _ hc))

/-- C21, evaluated on the code: from the initial state of a fresh installation, the single call
`migrate('bogus', 'local')` rejects in the unknown-type branch of `load` and leaves the in-memory
selector at `bogus`, so that a following `load` and a following `save` reach their unknown-type
branches as well; `migrate('local', 'bogus')` leaves it at `bogus` in the same way. The
persisted selector is not touched. -/
theorem migrate_unknown_type_breaks_selector :
    validSelectors (Store.fresh emptyChrome) ∧
    (migrate Faults.none Faults.none "bogus" "local" (Store.fresh emptyChrome)).1
      = .error (.error "Unbekannter Storage-Typ: bogus") ∧
    getStorageType (runCalls [.migrate Faults.none Faults.none "bogus" "local"]
      (Store.fresh emptyChrome)) = "bogus" ∧
    ¬ validSelectors (runCalls [.migrate Faults.none Faults.none "bogus" "local"]
      (Store.fresh emptyChrome)) ∧
    (load Faults.none (runCalls [.migrate Faults.none Faults.none "bogus" "local"]
      (Store.fresh emptyChrome))).1 = .error (.error "Unbekannter Storage-Typ: bogus") ∧
    (save Faults.none okMap (runCalls [.migrate Faults.none Faults.none "bogus" "local"]
      (Store.fresh emptyChrome))).1 = .error (.error "Unbekannter Storage-Typ: bogus") ∧
    getStorageType (runCalls [.migrate Faults.none Faults.none "local" "bogus"]
      (Store.fresh emptyChrome)) = "bogus" ∧
    (runCalls [.migrate Faults.none Faults.none "bogus" "local"]
      (Store.fresh emptyChrome)).chrome.storageType = none := by
  refine ⟨?_, rfl, rfl, ?_, rfl, rfl, rfl, rfl⟩
  · exact ⟨Or.inr (Or.inl rfl), Or.inl rfl⟩
  · intro h
    have hsel : getStorageType (runCalls [.migrate Faults.none Faults.none "bogus" "local"]
        (Store.fresh emptyChrome)) = "bogus" := rfl
    have hv : validType "bogus" := by
      have h1 := h.1
      rw [show (runCalls [.migrate Faults.none Faults.none "bogus" "local"]
        (Store.fresh emptyChrome)).currentStorageType = "bogus" from hsel] at h1
      exact h1
    revert hv
    decide

/-! ## The capacities of the statistics and of the store -/

/-- In every branch of `updateStats` the percentage is the byte size over the capacity that
`maxSizeMB` stands for. -/
theorem updateStats_percent (translations : TranslationMap) (p : OptionsPage) :
    (Options.updateStats translations p).percentUsedExact =
      ((Options.updateStats translations p).sizeBytes : ℚ) /
        (Options.updateStats translations p).capacityBytes * 100 := by
  unfold Options.updateStats StatsFigures.capacityBytes
  by_cases h1 : p.currentStorageType = "sync"
  · simp only [if_pos h1]
    norm_num
    ring
  · by_cases h2 : p.currentStorageType = "local"
    · simp only [if_neg h1, if_pos h2]
      ring
    · by_cases h3 : p.currentStorageType = "indexeddb"
      · simp only [if_neg h1, if_neg h2, if_pos h3]
        ring
      · simp only [if_neg h1, if_neg h2, if_neg h3]
        ring

/-- For `local` and `indexeddb` the statistics use the limit that `getStorageInfo` reports, and
the two percentages of the stored map are the same rational number. -/
theorem updateStats_agrees_local_indexedDB (b : Backend) (s : Store) (p : OptionsPage)
    (hb : b = .chromeLocal ∨ b = .indexedDB)
    (hactive : s.currentStorageType = b.id) (hpage : p.currentStorageType = b.id) :
    ∃ info s1, getStorageInfo Faults.none s = (.ok info, s1) ∧
      (Options.updateStats (heldBy b s.chrome) p).capacityBytes = (info.limit : ℚ) ∧
      (Options.updateStats (heldBy b s.chrome) p).sizeBytes = info.sizeBytes ∧
      (Options.updateStats (heldBy b s.chrome) p).percentUsedExact = info.percentUsedExact := by
  have hs : s = { s with currentStorageType := b.id } := by
    cases s; simp_all
  have hload := load_eq_heldBy b s
  rw [← hs] at hload
  rcases hb with hb | hb
  · subst hb
    refine ⟨_, _, by simp [getStorageInfo, hload, hactive, Backend.id]; exact ⟨rfl, rfl⟩, ?_, ?_, ?_⟩
    · simp [Options.updateStats, StatsFigures.capacityBytes, hpage, Backend.id]
      norm_num
    · simp [Options.updateStats, hpage, Backend.id]
    · simp [Options.updateStats, StorageInfo.percentUsedExact, hpage, Backend.id]
      ring
  · subst hb
    refine ⟨_, _, by simp [getStorageInfo, hload, hactive, Backend.id]; exact ⟨rfl, rfl⟩, ?_, ?_, ?_⟩
    · simp [Options.updateStats, StatsFigures.capacityBytes, hpage, Backend.id]
      norm_num
    · simp [Options.updateStats, hpage, Backend.id]
    · simp [Options.updateStats, StorageInfo.percentUsedExact, hpage, Backend.id]
      ring

/-- C22, evaluated on the code: for the `sync` backend holding a map of exactly 102400 bytes,
`getStorageInfo` reports the limit 102400 and 100 percent, and `save` accepts that map and
rejects one byte more, while `updateStats` takes `maxSizeMB = 0.1`, a capacity of 104857.6
bytes, and computes 97.65625 percent for the same map. -/
theorem updateStats_sync_capacity_differs :
    (∃ info s1, getStorageInfo Faults.none fullSyncStore = (.ok info, s1) ∧
      info.sizeBytes = 102400 ∧ info.limit = 102400 ∧ info.percentUsedExact = 100) ∧
    (save Faults.none (fillerMap 102392) fullSyncStore).1 = .ok () ∧
    (∃ err, (save Faults.none (fillerMap 102393) fullSyncStore).1 = .error err) ∧
    (Options.updateStats (fillerMap 102392) fullSyncPage).sizeBytes = 102400 ∧
    (Options.updateStats (fillerMap 102392) fullSyncPage).maxSizeMB = 1 / 10 ∧
    (Options.updateStats (fillerMap 102392) fullSyncPage).capacityBytes = 524288 / 5 ∧
    (Options.updateStats (fillerMap 102392) fullSyncPage).capacityBytes ≠ 102400 ∧
    (Options.updateStats (fillerMap 102392) fullSyncPage).percentUsedExact = 3125 / 32 := by
  have hsize : blobSize (jsonStringify (fillerMap 102392)) = 102400 := by
    rw [blobSize_fillerMap]
  have hload : load Faults.none fullSyncStore = (.ok (fillerMap 102392), fullSyncStore) := by
    simp [load, loadFromChromeSync, fullSyncStore]
  have hfigures : Options.updateStats (fillerMap 102392) fullSyncPage =
      ⟨(fillerMap 102392).keys.length, 102400, toFixed2 102400 1024, 0.1,
        ((102400 : ℚ) / 1024) / (0.1 * 1024) * 100⟩ := by
    simp [Options.updateStats, fullSyncPage, hsize]
  refine ⟨?_, ?_, ?_, ?_, ?_, ?_, ?_, ?_⟩
  · refine ⟨⟨"sync", (fillerMap 102392).keys.length, 102400, toFixed2 102400 1024 ++ " KB",
      100 * 1024⟩, fullSyncStore, ?_, rfl, rfl, ?_⟩
    · unfold getStorageInfo
      rw [hload]
      simp [hsize, fullSyncStore]
    · simp [StorageInfo.percentUsedExact]
  · have hsz : ¬ blobSize (jsonStringify (fillerMap 102392)) > 100 * 1024 := by
      rw [hsize]; decide
    simp [save, saveToChromeSync, fullSyncStore, hsz, Faults.none]
  · exact ⟨_, by
      rw [save_sync_over_quota (fillerMap 102393) Faults.none fullSyncStore rfl
        (by rw [blobSize_fillerMap]; decide)]⟩
  · rw [hfigures]
  · rw [hfigures]; norm_num
  · rw [hfigures]; norm_num [StatsFigures.capacityBytes]
  · rw [hfigures]; norm_num [StatsFigures.capacityBytes]
  · rw [hfigures]; norm_num

/-! ## The method call `translations.hasOwnProperty` -/

theorem callHasOwnProperty_inherited (d : TranslationMap) (key : String)
    (hplain : d.hasOwnProperty "hasOwnProperty" = false) :
    d.callHasOwnProperty key = .ok (d.hasOwnProperty key) := by
  simp [TranslationMap.callHasOwnProperty, hplain]

/-- For a dictionary without an own entry named `hasOwnProperty` the call does not throw and
`translateTextNodeCall` is `translateTextNode`. -/
theorem translateTextNodeCall_inherited (d : TranslationMap) (P : List Nat) (node : TextNode)
    (hplain : d.hasOwnProperty "hasOwnProperty" = false) :
    translateTextNodeCall d P node = .ok (translateTextNode d P node) := by
  unfold translateTextNodeCall translateTextNode
  by_cases hP : node.id ∈ P
  · simp [hP]
  · simp only [hP, if_false, callHasOwnProperty_inherited d _ hplain]
    unfold TranslationMap.hasOwnProperty TranslationMap.get?
    cases h : d.entries.lookup (jsTrim node.textContent) <;> simp

theorem translateNodesCall_inherited (d : TranslationMap)
    (hplain : d.hasOwnProperty "hasOwnProperty" = false) (nodes : List TextNode) :
    ∀ P, translateNodesCall d P nodes =
      (.ok (translateNodes d P nodes).1, (translateNodes d P nodes).2.1,
        (translateNodes d P nodes).2.2) := by
  induction nodes with
  | nil => intro P; simp [translateNodesCall, translateNodes]
  | cons node rest ih =>
    intro P
    by_cases hacc : acceptNode node = true
    · have hcall := translateTextNodeCall_inherited d P node hplain
      rcases hstep : translateTextNode d P node with ⟨translated, node1, P1⟩
      rw [hstep] at hcall
      have hrec := ih P1
      rcases hrest : translateNodes d P1 rest with ⟨count, rest1, P2⟩
      rw [hrest] at hrec
      simp [translateNodesCall, translateNodes, hacc, hcall, hstep, hrec, hrest]
    · have hrej : acceptNode node = false := by simpa using hacc
      have hrec := ih P
      rcases hrest : translateNodes d P rest with ⟨count, rest1, P2⟩
      rw [hrest] at hrec
      simp [translateNodesCall, translateNodes, hrej, hrec, hrest]

/-- For a dictionary without an own entry named `hasOwnProperty`, `translateDocumentCall` is
`translateDocument`. -/
theorem translateDocumentCall_inherited (e : Engine)
    (hplain : e.translations.hasOwnProperty "hasOwnProperty" = false) :
    translateDocumentCall e = translateDocument e := by
  unfold translateDocumentCall translateDocument
  by_cases hbusy : e.isTranslating = true
  · simp [hbusy]
  · have hcall := translateNodesCall_inherited e.translations hplain e.body e.processedNodes
    rcases hpass : translateNodes e.translations e.processedNodes e.body with ⟨count, body1, P1⟩
    rw [hpass] at hcall
    simp [hbusy, hcall]

/-- Exact-match substitution, as far as it holds: for every dictionary `d` without an own entry
named `hasOwnProperty` and every unprocessed text node, if the whole trimmed text of the node is
a key of `d` with value `value`, `translateTextNode` sets the text to the leading white space,
`value` and the trailing white space, marks the node and returns `true`; if the trimmed text is
not a key, it returns `false` and changes nothing. -/
theorem translateTextNodeCall_exact (d : TranslationMap) (processed : List Nat) (node : TextNode)
    (hplain : d.hasOwnProperty "hasOwnProperty" = false) (hnew : node.id ∉ processed) :
    (∀ value, d.get? (jsTrim node.textContent) = some value →
      translateTextNodeCall d processed node =
        .ok (true,
          { node with textContent := matchLeadingWhitespace node.textContent ++ value ++
              matchTrailingWhitespace node.textContent },
          node.id :: processed)) ∧
    (d.get? (jsTrim node.textContent) = none →
      translateTextNodeCall d processed node = .ok (false, node, processed)) := by
  rw [translateTextNodeCall_inherited d processed node hplain]
  constructor
  · intro value hkey
    simp [translateTextNode, hnew, hkey]
  · intro hnone
    simp [translateTextNode, hnew, hnone]

/-- Under a dictionary with an own entry named `hasOwnProperty`, `translateTextNode` returns
`false` for a processed node and throws for every other node. -/
theorem translateTextNodeCall_shadowed (d : TranslationMap) (P : List Nat) (node : TextNode)
    (hshadow : d.hasOwnProperty "hasOwnProperty" = true) :
    translateTextNodeCall d P node =
      if node.id ∈ P then .ok (false, node, P) else .error .typeError := by
  unfold translateTextNodeCall
  by_cases hP : node.id ∈ P
  · simp [hP]
  · simp [hP, TranslationMap.callHasOwnProperty, hshadow]

theorem translateNodesCall_shadowed (d : TranslationMap)
    (hshadow : d.hasOwnProperty "hasOwnProperty" = true) (nodes : List TextNode) (P : List Nat) :
    (translateNodesCall d P nodes = (.ok 0, nodes, P) ∨
      translateNodesCall d P nodes = (.error .typeError, nodes, P)) := by
  induction nodes with
  | nil => left; simp [translateNodesCall]
  | cons node rest ih =>
    by_cases hacc : acceptNode node = true
    · have hcall := translateTextNodeCall_shadowed d P node hshadow
      by_cases hP : node.id ∈ P
      · simp only [hP, if_true] at hcall
        rcases ih with h | h
        · left; simp [translateNodesCall, hacc, hcall, h]
        · right; simp [translateNodesCall, hacc, hcall, h]
      · simp only [hP, if_false] at hcall
        right; simp [translateNodesCall, hacc, hcall]
    · have hrej : acceptNode node = false := by simpa using hacc
      rcases ih with h | h
      · left; simp [translateNodesCall, hrej, h]
      · right; simp [translateNodesCall, hrej, h]

/-- Under a dictionary with an own entry named `hasOwnProperty` a pass translates nothing and
changes nothing, whatever the page holds. -/
theorem translateDocumentCall_shadowed (e : Engine)
    (hshadow : e.translations.hasOwnProperty "hasOwnProperty" = true) :
    translateDocumentCall e = (0, e) := by
  unfold translateDocumentCall
  by_cases hbusy : e.isTranslating = true
  · simp [hbusy]
  · have hidle : e.isTranslating = false := by simpa using hbusy
    obtain ⟨translations, busy, processed, defaults, store, body, started⟩ := e
    simp only at hidle hshadow
    subst hidle
    rcases translateNodesCall_shadowed translations hshadow body processed with h | h <;>
      simp [h]

/-- A pass with the method call made on the dictionary is the pass under the own-property test,
or it changes nothing. -/
theorem translateDocumentCall_cases (e : Engine) :
    translateDocumentCall e = translateDocument e ∨ translateDocumentCall e = (0, e) := by
  cases hshadow : e.translations.hasOwnProperty "hasOwnProperty"
  · exact Or.inl (translateDocumentCall_inherited e hshadow)
  · exact Or.inr (translateDocumentCall_shadowed e hshadow)

/-- C7, evaluated on the code: under the dictionary
`{"hasOwnProperty": "hatEigenschaft", "OK": "In Ordnung"}` the whole trimmed text of the
unprocessed node `OK` is a key, with value `In Ordnung`, yet `translateTextNode` throws a
`TypeError` at the call `translations.hasOwnProperty(originalText)`, which finds the string
entry: the node is neither translated nor marked, and a pass of `translateDocument` over the
page translates no node. Without the entry `hasOwnProperty` the same node becomes
`In Ordnung`. -/
theorem translateTextNode_own_hasOwnProperty_throws :
    shadowingMap.get? (jsTrim "OK") = some "In Ordnung" ∧
    translateTextNodeCall shadowingMap [] ⟨1, some "SPAN", "OK"⟩ = .error .typeError ∧
    translateDocumentCall shadowingEngine = (0, shadowingEngine) ∧
    translateTextNodeCall okMap [] ⟨1, some "SPAN", "OK"⟩
      = .ok (true, ⟨1, some "SPAN", "In Ordnung"⟩, [1]) := by
  refine ⟨by decide, ?_, translateDocumentCall_shadowed shadowingEngine (by decide), ?_⟩
  · rw [translateTextNodeCall_shadowed shadowingMap [] _ (by decide)]
    simp
  · rw [translateTextNodeCall_inherited okMap [] _ (by decide)]
    have h : translateTextNode okMap [] ⟨1, some "SPAN", "OK"⟩
        = (true, ⟨1, some "SPAN", "In Ordnung"⟩, [1]) := by decide
    rw [h]

/-! ## The entry `__proto__` on the IndexedDB backend -/

/-- C1, evaluated on the code: the map `{"__proto__": "Prototyp", "Save": "Speichern"}` is
within the capacity of the IndexedDB backend. With that backend active and no platform call
failing, `save` succeeds and writes both records, and the following `load` returns
`{"Save": "Speichern"}`, which is not the map saved: the assignment
`translations[entry.source] = entry.target` creates no entry for the record `__proto__`. On the
backend `local` the same map is returned as it was saved. -/
theorem save_load_indexedDB_drops_proto :
    withinCapacity .indexedDB protoMap ∧
    (∃ s1, save Faults.none protoMap ⟨"indexeddb", false, emptyChrome⟩ = (.ok (), s1) ∧
      s1.chrome.objectStore = [⟨0, "__proto__", "Prototyp"⟩, ⟨1, "Save", "Speichern"⟩] ∧
      (load Faults.none s1).1 = .ok saveMap) ∧
    saveMap ≠ protoMap ∧
    (∃ s1, save Faults.none protoMap ⟨"local", false, emptyChrome⟩ = (.ok (), s1) ∧
      (load Faults.none s1).1 = .ok protoMap) := by
  refine ⟨trivial, ⟨_, rfl, rfl, rfl⟩, by decide, ⟨_, rfl, rfl⟩⟩

/-- C3, evaluated on the code: the backend `local` holds
`{"__proto__": "Prototyp", "Save": "Speichern"}`, which is what `load` returns under `local` and
which fits the IndexedDB backend. `migrate('local', 'indexeddb')` succeeds, returns that map of
two entries and makes `indexeddb` the active backend in memory and in the persisted selector,
but the following `load` returns `{"Save": "Speichern"}`, not the map that `load` returned
before the migration. -/
theorem migrate_to_indexedDB_drops_proto :
    (load Faults.none protoLocalStore).1 = .ok protoMap ∧
    withinCapacity .indexedDB protoMap ∧
    ∃ s1, migrate Faults.none Faults.none "local" "indexeddb" protoLocalStore
        = (.ok protoMap, s1) ∧
      getStorageType s1 = "indexeddb" ∧ s1.chrome.storageType = some "indexeddb" ∧
      (load Faults.none s1).1 = .ok saveMap ∧ saveMap ≠ protoMap := by
  refine ⟨rfl, trivial, _, rfl, rfl, rfl, rfl, by decide⟩

/-- C11, evaluated on the code: on an options page whose active backend is IndexedDB, the file
`{"translations": {"__proto__": "Prototyp", "Save": "Speichern"}, "languagePair": "en-de"}` has
the export shape, a non-empty map that fits the backend and a non-empty pair. The handler
reports two imported entries and stores the pair `en-de`, but afterwards `load` returns
`{"Save": "Speichern"}`, not the map of the file; the same holds for the bare map as the
file. -/
theorem import_indexedDB_drops_proto :
    withinCapacity .indexedDB protoMap ∧
    (∃ p1, Options.importOnChange Faults.none Faults.none Faults.none Faults.none
        (.parsed (.object [("translations", protoMap.toJson), ("languagePair", .string "en-de")]))
        indexedDBOptionsPage = some (.imported 2, p1) ∧
      p1.selectedLanguagePair = some "en-de" ∧
      (load Faults.none p1.store).1 = .ok saveMap) ∧
    (∃ p1, Options.importOnChange Faults.none Faults.none Faults.none Faults.none
        (.parsed protoMap.toJson) indexedDBOptionsPage = some (.imported 2, p1) ∧
      p1.selectedLanguagePair = some "en-de" ∧
      (load Faults.none p1.store).1 = .ok saveMap) ∧
    saveMap ≠ protoMap := by
  refine ⟨trivial, ⟨_, rfl, rfl, rfl⟩, ⟨_, rfl, rfl, rfl⟩, by decide⟩

/-! ## The checks of the import handler -/

/-- The import handler shows the exception of its checks and changes nothing, or goes on to
save the pair that passed them. -/
theorem importOnChange_validation (pfSave pfInfo pfLoad pfResave : Faults) (data : JsonValue)
    (p : OptionsPage) :
    (∀ err, Options.importValidation data = .error err →
      Options.importOnChange pfSave pfInfo pfLoad pfResave (.parsed data) p
        = some (.failed err, p)) ∧
    (∀ translations languagePair,
      Options.importValidation data = .ok (translations, languagePair) →
      Options.importOnChange pfSave pfInfo pfLoad pfResave (.parsed data) p =
        match translations.asTranslationMap with
        | none => none
        | some typed =>
          match Options.saveTranslations pfSave pfInfo typed p with
          | (.error e, p1) => some (.failed (.thrown e), p1)
          | (.ok (), p1) =>
            match languagePair with
            | .string pair =>
              match Options.renderTranslations pfLoad pfResave
                  (Options.saveLanguagePair pair p1) with
              | some p2 => some (.imported typed.keys.length, p2)
              | none => none
            | _ => none) := by
  cases data with
  | object members =>
    rcases hsel : Options.importSelection members with ⟨translations1, languagePair1⟩
    by_cases hzero : translations1.keyCount = 0
    · simp [Options.importValidation, Options.importOnChange, JsonValue.typeofObject,
        JsonValue.isArray, hsel, hzero]
    · simp only [Options.importValidation, Options.importOnChange, JsonValue.typeofObject,
        JsonValue.isArray, hsel, hzero]
      simp only [not_true_eq_false, Bool.false_eq_true, or_self, if_false, Except.ok.injEq,
        Prod.mk.injEq, reduceCtorEq, false_implies, implies_true, true_and, and_imp]
      intro translations languagePair h1 h2
      subst h1 h2
      rfl
  | null =>
    simp [Options.importValidation, Options.importOnChange, JsonValue.typeofObject,
      JsonValue.isArray]
  | bool b =>
    simp [Options.importValidation, Options.importOnChange, JsonValue.typeofObject,
      JsonValue.isArray]
  | number n =>
    simp [Options.importValidation, Options.importOnChange, JsonValue.typeofObject,
      JsonValue.isArray]
  | string str =>
    simp [Options.importValidation, Options.importOnChange, JsonValue.typeofObject,
      JsonValue.isArray]
  | array items =>
    simp [Options.importValidation, Options.importOnChange, JsonValue.typeofObject,
      JsonValue.isArray]

/-- An accepted text node has a non-empty trimmed text. -/
theorem acceptNode_trimmed (node : TextNode) (hacc : acceptNode node = true) :
    jsTrim node.textContent ≠ "" := by
  unfold acceptNode at hacc
  cases hparent : node.parentTagName with
  | none => simp [hparent] at hacc
  | some tagName =>
    simp only [hparent] at hacc
    by_cases htag : tagName = "SCRIPT" ∨ tagName = "STYLE"
    · simp [htag] at hacc
    · intro hempty
      simp [htag, hempty] at hacc

/-- C12, evaluated on the code: the file `{"": ""}` yields no usable entry, since under the
dictionary it makes no text node that the pass accepts is ever translated, yet the import
handler accepts it: on a page whose backend `local` holds `{"Save": "Speichern"}` with the
stored language pair `en-fr`, it reports one imported entry, and afterwards `load` returns
`{"": ""}` and the stored pair is `en-de`. The files `{"translations": null}` and `{"a": 1}`
pass the checks as well, and the handler goes on to save them as the dictionary. -/
theorem import_accepts_unusable_entries :
    (∀ (P : List Nat) (node : TextNode), acceptNode node = true →
      translateTextNodeCall blankMap P node = .ok (false, node, P)) ∧
    (load Faults.none storedOptionsPage.store).1 = .ok saveMap ∧
    storedOptionsPage.selectedLanguagePair = some "en-fr" ∧
    (∃ p1, Options.importOnChange Faults.none Faults.none Faults.none Faults.none
        (.parsed (.object [("", .string "")])) storedOptionsPage = some (.imported 1, p1) ∧
      (load Faults.none p1.store).1 = .ok blankMap ∧
      p1.selectedLanguagePair = some "en-de") ∧
    Options.importValidation (.object [("translations", .null)])
      = .ok (.object [("translations", .null)], .string "en-de") ∧
    Options.importValidation (.object [("a", .number 1)])
      = .ok (.object [("a", .number 1)], .string "en-de") := by
  refine ⟨?_, rfl, rfl, ⟨_, rfl, rfl, rfl⟩, rfl, rfl⟩
  intro P node hacc
  have htrim := acceptNode_trimmed node hacc
  rw [translateTextNodeCall_inherited blankMap P node (by decide)]
  unfold translateTextNode
  by_cases hP : node.id ∈ P
  · simp [hP]
  · have hb : (jsTrim node.textContent == "") = false := by simpa using htrim
    have hnone : blankMap.get? (jsTrim node.textContent) = none := by
      simp [TranslationMap.get?, blankMap, List.lookup, hb]
    simp [hP, hnone]

end TranslationHelper
